import Mathlib

/-!
# RecursiveWrapper: a shallow embedding of `recursive_wrapper.hpp`

The header defines `recursive_wrapper<T, FixedStorageSize>`: a cell that keeps a `T`
either inside its own bytes or behind an owning pointer, and a function pointer
(`storage_strategy_`) to one of two static strategy functions that carry out the
seven storage operations.

Modelling conventions.
* The wrapped type `T` is a parameter (`WrappedType`): its three compile-time traits
  and the behaviour of its default, copy and move constructors. A constructor either
  yields a value or raises an exception of type `E`.
* Memory is explicit (`World`): wrapper objects by address, heap blocks by address,
  a bump allocator for `new`, and a trace of observable events (stream output,
  constructor and destructor runs, allocations and releases).
* Every operation returns an outcome together with the memory at that point, so the
  memory in which an exception propagates is available.
* Behaviour the C++ standard leaves undefined is reported as a `Fault`: a call through
  a null function pointer (`null_call`), and a destructor run or a read on storage
  that holds no live object (`bad_access`). `assert` is modelled as enabled.
* `const` qualification is not part of the memory model. The header's three members
  that depend on it, the copy constructor, the copy assignment operator and
  `operator const T&() const`, cannot be instantiated as written: each goes through
  `get_pointer() const`, which passes the const member `storage_` to a `storage_type&`
  parameter. Their definitions below give what their bodies would do with the qualifiers
  erased.
* Allocation failure of `new` is not modelled.
-/

namespace RecursiveWrapper

/-! ## The wrapped type and the platform -/

/-- Traits and special member functions of the wrapped type `T`;
`V` is the type of its values, `E` the type of exceptions its constructors raise. -/
structure WrappedType (V E : Type) where
  /-- Mirrors `std::is_nothrow_move_constructible_v<T>` -/
  nothrow_move : Bool
  /-- Mirrors `sizeof(T)` -/
  sizeof : Nat
  /-- Mirrors `alignof(T)` -/
  alignof : Nat
  /-- Default constructor `T()` -/
  ctor : Except E V
  /-- Copy constructor `T(const T&)` -/
  copy : V → Except E V
  /-- Move constructor `T(T&&)`: the new object and the state left in the source -/
  move : V → Except E (V × V)

/-- Size and alignment of an object pointer `T*` on the target platform. -/
structure Platform where
  ptr_size : Nat
  ptr_align : Nat
deriving DecidableEq, Repr

/-! ## Storage decision (`impl::use_internal_storage_v`) -/

/-- Embeds `impl::use_internal_storage_v<T, SizeOfStorage, AlignOfStorage>`. -/
def use_internal_storage_v {V E : Type} (T : WrappedType V E)
    (SizeOfStorage AlignOfStorage : Nat) : Bool :=
  T.nothrow_move &&
  decide (T.sizeof ≤ SizeOfStorage) &&
  (AlignOfStorage % T.alignof == 0)

/-- Smallest multiple of `k` that is at least `n`. -/
def round_up (n k : Nat) : Nat := (n + k - 1) / k * k

/-- Alignment of `union storage_type`: the strictest member alignment, where
`std::byte[FixedStorageSize]` has alignment 1 and `T*` has the pointer alignment. -/
def alignof_storage_type (pf : Platform) : Nat := max 1 pf.ptr_align

/-- Size of `union storage_type`: the largest member (`FixedStorageSize` bytes or one
pointer), padded to the alignment of the union. -/
def sizeof_storage_type (pf : Platform) (FixedStorageSize : Nat) : Nat :=
  round_up (max FixedStorageSize pf.ptr_size) (alignof_storage_type pf)

/-- The two static strategy functions a `storage_strategy_` pointer can designate. -/
inductive strategy_fn where
  | internal
  | external
deriving DecidableEq, Repr

/-- The conditional expression in the default constructor's body:
`use_internal_storage_v<T, sizeof(decltype(storage_)), alignof(decltype(storage_))>
   ? &internal_storage_strategy : &external_storage_strategy`. -/
def select_strategy {V E : Type} (T : WrappedType V E) (pf : Platform)
    (FixedStorageSize : Nat) : strategy_fn :=
  if use_internal_storage_v T (sizeof_storage_type pf FixedStorageSize)
      (alignof_storage_type pf) then .internal else .external

/-! ## Memory model -/

/-- A pointer to a `T`: null, the start of the inline bytes of the wrapper at an
address, or a heap block. -/
inductive Ptr where
  | null
  | inl (wrapper : Nat)
  | ext (block : Nat)
deriving DecidableEq, Repr

/-- Storage suitable for one `T`: holding a live object, or raw (never constructed,
or already destroyed). -/
inductive Slot (V : Type) where
  | live (v : V)
  | dead
deriving DecidableEq, Repr

/-- Embeds `union storage_type`: the bytes viewed as `internal_storage_` (room for a
`T`), or as the pointer `external_storage_`. -/
inductive storage_type (V : Type) where
  | bytes (s : Slot V)
  | ptr (p : Ptr)
deriving DecidableEq, Repr

/-- Embeds the data members of `recursive_wrapper<T, FixedStorageSize>`;
`storage_strategy_ = none` is the null function pointer. -/
structure recursive_wrapper (V : Type) where
  storage_ : storage_type V
  storage_strategy_ : Option strategy_fn
deriving DecidableEq, Repr

/-- Embeds `enum class storage_operation`. -/
inductive storage_operation where
  | CONSTRUCT
  | CONSTRUCT_COPY_VALUE
  | CONSTRUCT_MOVE_VALUE
  | DESTROY
  | GET_VALUE_PTR
  | ASSIGN_COPY_VALUE
  | ASSIGN_MOVE_VALUE
deriving DecidableEq, Repr

/-- Which constructor of `T` ran. -/
inductive ctor_kind where
  | by_default
  | by_copy
  | by_move
deriving DecidableEq, Repr

/-- Observable events, in program order. -/
inductive Event where
  /-- A line written to `std::cout` -/
  | print (line : String)
  /-- A constructor of `T` completed at the pointer -/
  | constructed (p : Ptr) (k : ctor_kind)
  /-- The destructor of `T` ran at the pointer -/
  | destroyed (p : Ptr)
  /-- Function `operator new` returned the block -/
  | allocated (block : Nat)
  /-- Function `operator delete` released the block -/
  | released (block : Nat)
deriving DecidableEq, Repr

/-- Abnormal ends of an operation. -/
inductive Fault (E : Type) where
  /-- An exception raised by a constructor of `T`, propagating to the caller -/
  | thrown (e : E)
  /-- A failed `assert` -/
  | assert_failed
  /-- A call through a null function pointer -/
  | null_call
  /-- A destructor run or a read on storage without a live object -/
  | bad_access
deriving DecidableEq, Repr

/-- The whole memory: wrapper objects, heap blocks, the next fresh heap address and
the event trace. -/
structure World (V : Type) where
  objs : Nat → Option (recursive_wrapper V)
  heap : Nat → Option (Slot V)
  brk : Nat
  log : List Event

/-- An outcome and the memory in which it was produced. -/
abbrev Outcome (V E α : Type) := Except (Fault E) α × World V

/-- Pointwise update of a memory map. -/
def upd {β : Type} (f : Nat → β) (a : Nat) (b : β) : Nat → β :=
  fun x => if x = a then b else f x

/-- The memory before the program starts. -/
def World.empty (V : Type) : World V :=
  { objs := fun _ => none, heap := fun _ => none, brk := 0, log := [] }

/-- Appends one event to the trace. -/
def World.emit {V : Type} (w : World V) (e : Event) : World V :=
  { w with log := w.log ++ [e] }

/-- The `T`-sized storage a pointer designates, if the pointer designates storage. -/
def slot_at {V : Type} (w : World V) : Ptr → Option (Slot V)
  | .null => none
  | .inl i =>
    match w.objs i with
    | some wr =>
      match wr.storage_ with
      | .bytes s => some s
      | .ptr _ => some .dead
    | none => none
  | .ext a => w.heap a

/-- Overwrites the `T`-sized storage a pointer designates. -/
def set_slot {V : Type} (w : World V) : Ptr → Slot V → World V
  | .null, _ => w
  | .inl i, s =>
    match w.objs i with
    | some wr => { w with objs := upd w.objs i (some { wr with storage_ := .bytes s }) }
    | none => w
  | .ext a, s => { w with heap := upd w.heap a (some s) }

/-- Reads the live `T` behind a pointer (`*p`). -/
def load {V : Type} (w : World V) (p : Ptr) : Option V :=
  match slot_at w p with
  | some (.live v) => some v
  | _ => none

/-- Runs `p->~T()`. -/
def destroy_at {V E : Type} (w : World V) (p : Ptr) : Outcome V E Unit :=
  match slot_at w p with
  | some (.live _) => (.ok (), (set_slot w p .dead).emit (.destroyed p))
  | _ => (.error .bad_access, w)

/-- Runs `::new (p) T()`. -/
def construct_at {V E : Type} (T : WrappedType V E) (w : World V) (p : Ptr) :
    Outcome V E Unit :=
  match slot_at w p with
  | none => (.error .bad_access, w)
  | some _ =>
    match T.ctor with
    | .ok v => (.ok (), (set_slot w p (.live v)).emit (.constructed p .by_default))
    | .error e => (.error (.thrown e), w)

/-- Runs `::new (p) T(*pValue)`. -/
def copy_construct_at {V E : Type} (T : WrappedType V E) (w : World V) (p pValue : Ptr) :
    Outcome V E Unit :=
  match slot_at w p with
  | none => (.error .bad_access, w)
  | some _ =>
    match load w pValue with
    | none => (.error .bad_access, w)
    | some v =>
      match T.copy v with
      | .ok c => (.ok (), (set_slot w p (.live c)).emit (.constructed p .by_copy))
      | .error e => (.error (.thrown e), w)

/-- Runs `::new (p) T(std::move(*pValue))`. -/
def move_construct_at {V E : Type} (T : WrappedType V E) (w : World V) (p pValue : Ptr) :
    Outcome V E Unit :=
  match slot_at w p with
  | none => (.error .bad_access, w)
  | some _ =>
    match load w pValue with
    | none => (.error .bad_access, w)
    | some v =>
      match T.move v with
      | .ok (c, r) =>
        (.ok (), (set_slot (set_slot w pValue (.live r)) p (.live c)).emit
          (.constructed p .by_move))
      | .error e => (.error (.thrown e), w)

/-- Sequencing: continue with `k` after a normal end, stop at the first fault. -/
def Outcome.bind {V E α β : Type} (r : Outcome V E α) (k : α → World V → Outcome V E β) :
    Outcome V E β :=
  match r with
  | (.ok a, w) => k a w
  | (.error f, w) => (.error f, w)

/-- The allocation half of a new-expression: a fresh block of raw storage. -/
def allocate {V : Type} (w : World V) : World V :=
  ({ w with heap := upd w.heap w.brk (some .dead), brk := w.brk + 1 } : World V).emit
    (.allocated w.brk)

/-- The release half of a delete-expression. -/
def deallocate {V : Type} (w : World V) (a : Nat) : World V :=
  ({ w with heap := upd w.heap a none } : World V).emit (.released a)

/-- Runs `new T(...)`: allocate, run the given initialiser on the block, and release the
block again if the initialiser does not complete. -/
def new_expr {V E : Type} (w : World V) (init : World V → Ptr → Outcome V E Unit) :
    Outcome V E Ptr :=
  match init (allocate w) (.ext w.brk) with
  | (.ok _, w2) => (.ok (.ext w.brk), w2)
  | (.error f, w2) => (.error f, deallocate w2 w.brk)

/-- Runs `delete p`: destructor, then release. -/
def delete_expr {V E : Type} (w : World V) (p : Ptr) : Outcome V E Unit :=
  match p with
  | .null => (.ok (), w)
  | .inl _ => (.error .bad_access, w)
  | .ext a => (destroy_at w p).bind fun _ w1 => (.ok (), deallocate w1 a)

/-- Stores into the union member `external_storage_` of the wrapper at `storage`. -/
def set_external_storage_ {V : Type} (w : World V) (storage : Nat) (p : Ptr) : World V :=
  match w.objs storage with
  | some wr => { w with objs := upd w.objs storage (some { wr with storage_ := .ptr p }) }
  | none => w

/-! ## The two strategy functions -/

/-- Embeds `recursive_wrapper::internal_storage_strategy(storage, op, pValue)`;
`storage` is the address of the wrapper whose `storage_` is passed by reference. -/
def internal_storage_strategy {V E : Type} (T : WrappedType V E) (w : World V)
    (storage : Nat) (op : storage_operation) (pValue : Ptr) : Outcome V E Ptr :=
  let w0 := w.emit (.print "internal_storage_strategy")
  let ptr := Ptr.inl storage
  match op with
  | .GET_VALUE_PTR => (.ok ptr, w0)
  | .ASSIGN_COPY_VALUE =>
    if pValue = .null then (.error .assert_failed, w0) else
    (destroy_at w0 ptr).bind fun _ w1 =>
    (copy_construct_at T w1 ptr pValue).bind fun _ w2 => (.ok .null, w2)
  | .ASSIGN_MOVE_VALUE =>
    if pValue = .null then (.error .assert_failed, w0) else
    (destroy_at w0 ptr).bind fun _ w1 =>
    (move_construct_at T w1 ptr pValue).bind fun _ w2 => (.ok .null, w2)
  | .CONSTRUCT_COPY_VALUE =>
    if pValue = .null then (.error .assert_failed, w0) else
    (copy_construct_at T w0 ptr pValue).bind fun _ w1 => (.ok .null, w1)
  | .CONSTRUCT_MOVE_VALUE =>
    if pValue = .null then (.error .assert_failed, w0) else
    (move_construct_at T w0 ptr pValue).bind fun _ w1 => (.ok .null, w1)
  | .CONSTRUCT =>
    (construct_at T w0 ptr).bind fun _ w1 => (.ok .null, w1)
  | .DESTROY =>
    (destroy_at w0 ptr).bind fun _ w1 => (.ok .null, w1)

/-- Embeds `recursive_wrapper::external_storage_strategy(storage, op, pValue)`.
Reading `external_storage_` while the union holds an object in its bytes is a fault. -/
def external_storage_strategy {V E : Type} (T : WrappedType V E) (w : World V)
    (storage : Nat) (op : storage_operation) (pValue : Ptr) : Outcome V E Ptr :=
  let w0 := w.emit (.print "external_storage_strategy")
  match w0.objs storage with
  | none => (.error .bad_access, w0)
  | some wr =>
    match op with
    | .GET_VALUE_PTR =>
      match wr.storage_ with
      | .bytes _ => (.error .bad_access, w0)
      | .ptr external_storage_ =>
        if external_storage_ = .null then (.error .assert_failed, w0) else
        (.ok external_storage_, w0)
    | .ASSIGN_COPY_VALUE =>
      match wr.storage_ with
      | .bytes _ => (.error .bad_access, w0)
      | .ptr external_storage_ =>
        if external_storage_ = .null then (.error .assert_failed, w0) else
        if pValue = .null then (.error .assert_failed, w0) else
        (destroy_at w0 external_storage_).bind fun _ w1 =>
        (copy_construct_at T w1 external_storage_ pValue).bind fun _ w2 => (.ok .null, w2)
    | .ASSIGN_MOVE_VALUE =>
      match wr.storage_ with
      | .bytes _ => (.error .bad_access, w0)
      | .ptr external_storage_ =>
        if external_storage_ = .null then (.error .assert_failed, w0) else
        if pValue = .null then (.error .assert_failed, w0) else
        (destroy_at w0 external_storage_).bind fun _ w1 =>
        (move_construct_at T w1 external_storage_ pValue).bind fun _ w2 => (.ok .null, w2)
    | .CONSTRUCT_COPY_VALUE =>
      if pValue = .null then (.error .assert_failed, w0) else
      (new_expr w0 fun m p => copy_construct_at T m p pValue).bind fun p w1 =>
      (.ok .null, set_external_storage_ w1 storage p)
    | .CONSTRUCT_MOVE_VALUE =>
      if pValue = .null then (.error .assert_failed, w0) else
      (new_expr w0 fun m p => move_construct_at T m p pValue).bind fun p w1 =>
      (.ok .null, set_external_storage_ w1 storage p)
    | .CONSTRUCT =>
      (new_expr w0 fun m p => construct_at T m p).bind fun p w1 =>
      (.ok .null, set_external_storage_ w1 storage p)
    | .DESTROY =>
      match wr.storage_ with
      | .bytes _ => (.error .bad_access, w0)
      | .ptr external_storage_ =>
        if external_storage_ = .null then (.error .assert_failed, w0) else
        (delete_expr w0 external_storage_).bind fun _ w1 => (.ok .null, w1)

/-! ## The wrapper's member functions -/

/-- A call through a strategy function pointer. -/
def call_strategy {V E : Type} (T : WrappedType V E) (f : Option strategy_fn) (w : World V)
    (storage : Nat) (op : storage_operation) (pValue : Ptr) : Outcome V E Ptr :=
  match f with
  | none => (.error .null_call, w)
  | some .internal => internal_storage_strategy T w storage op pValue
  | some .external => external_storage_strategy T w storage op pValue

/-- The expression `storage_strategy_(storage_, op, pValue)` inside a member function of
the wrapper at address `self`. -/
def invoke {V E : Type} (T : WrappedType V E) (w : World V) (self : Nat)
    (op : storage_operation) (pValue : Ptr) : Outcome V E Ptr :=
  match w.objs self with
  | none => (.error .bad_access, w)
  | some wr => call_strategy T wr.storage_strategy_ w self op pValue

/-- The default member initialisers, which run at the start of every constructor:
`external_storage_ = nullptr` and `storage_strategy_ = nullptr`. -/
def begin_object {V : Type} (w : World V) (self : Nat) : World V :=
  { w with objs := upd w.objs self (some { storage_ := .ptr .null, storage_strategy_ := none }) }

/-- Assignment to the data member `storage_strategy_`. -/
def set_storage_strategy_ {V : Type} (w : World V) (self : Nat) (f : strategy_fn) : World V :=
  match w.objs self with
  | some wr => { w with objs := upd w.objs self (some { wr with storage_strategy_ := some f }) }
  | none => w

/-- Embeds `T* recursive_wrapper::get_pointer()`. -/
def get_pointer {V E : Type} (T : WrappedType V E) (w : World V) (self : Nat) :
    Outcome V E Ptr :=
  (invoke T w self .GET_VALUE_PTR .null).bind fun pResult w1 =>
    if pResult = .null then (.error .assert_failed, w1) else (.ok pResult, w1)

/-- Embeds `T& recursive_wrapper::get()`: the reference `*get_pointer()`. -/
def get {V E : Type} (T : WrappedType V E) (w : World V) (self : Nat) : Outcome V E Ptr :=
  get_pointer T w self

/-- Embeds `recursive_wrapper::operator T&()`. -/
def operator_T_ref {V E : Type} (T : WrappedType V E) (w : World V) (self : Nat) :
    Outcome V E Ptr :=
  get T w self

/-- The body of `recursive_wrapper::operator const T&() const` with `const` erased. As
written the operator cannot be instantiated: it goes through `get() const` to
`get_pointer() const`, which passes the const `storage_` to a `storage_type&`. -/
def operator_const_T_ref {V E : Type} (T : WrappedType V E) (w : World V) (self : Nat) :
    Outcome V E Ptr :=
  get T w self

/-- Embeds the default constructor `recursive_wrapper()`, run at address `self`. -/
def construct_default {V E : Type} (T : WrappedType V E) (pf : Platform)
    (FixedStorageSize : Nat) (w : World V) (self : Nat) : Outcome V E Unit :=
  let w1 := set_storage_strategy_ (begin_object w self) self
    (select_strategy T pf FixedStorageSize)
  (invoke T w1 self .CONSTRUCT .null).bind fun _ w2 => (.ok (), w2)

/-- The body of the copy constructor `recursive_wrapper(const recursive_wrapper& other)`
with `const` erased. As written the constructor cannot be instantiated:
`other.get_pointer()` selects `get_pointer() const` and yields a `const T*` where the
strategy takes a `T*`. -/
def construct_copy {V E : Type} (T : WrappedType V E) (w : World V) (self other : Nat) :
    Outcome V E Unit :=
  (get_pointer T (begin_object w self) other).bind fun p w1 =>
  (invoke T w1 self .CONSTRUCT_COPY_VALUE p).bind fun _ w2 => (.ok (), w2)

/-- Embeds the move constructor `recursive_wrapper(recursive_wrapper&& other)`. -/
def construct_move {V E : Type} (T : WrappedType V E) (w : World V) (self other : Nat) :
    Outcome V E Unit :=
  (get_pointer T (begin_object w self) other).bind fun p w1 =>
  (invoke T w1 self .CONSTRUCT_MOVE_VALUE p).bind fun _ w2 => (.ok (), w2)

/-- The body of `operator=(const recursive_wrapper& other)` with `const` erased; the
result is `this`. As written the operator cannot be instantiated:
`other.get_pointer()` selects `get_pointer() const` and yields a `const T*` where the
strategy takes a `T*`. -/
def assign_copy {V E : Type} (T : WrappedType V E) (w : World V) (self other : Nat) :
    Outcome V E Nat :=
  if self = other then (.ok self, w) else
  (get_pointer T w other).bind fun p w1 =>
  (invoke T w1 self .ASSIGN_COPY_VALUE p).bind fun _ w2 => (.ok self, w2)

/-- Embeds `operator=(recursive_wrapper&& other)`; the result is `this`. -/
def assign_move {V E : Type} (T : WrappedType V E) (w : World V) (self other : Nat) :
    Outcome V E Nat :=
  if self = other then (.ok self, w) else
  (get_pointer T w other).bind fun p w1 =>
  (invoke T w1 self .ASSIGN_MOVE_VALUE p).bind fun _ w2 => (.ok self, w2)

/-- Embeds the destructor `~recursive_wrapper()`; afterwards no object lives at `self`. -/
def destruct {V E : Type} (T : WrappedType V E) (w : World V) (self : Nat) :
    Outcome V E Unit :=
  (invoke T w self .DESTROY .null).bind fun _ w1 =>
    (.ok (), { w1 with objs := upd w1.objs self none })

/-! ## Usage: the demonstration program and sample wrapped types -/

/-- A 64-bit platform: pointers of 8 bytes, aligned to 8. -/
def lp64 : Platform := { ptr_size := 8, ptr_align := 8 }

/-- The struct `Object2` of `main.cpp`: empty, so of size 1 and alignment 1, with
implicitly defined constructors that cannot fail. -/
def Object2 : WrappedType Unit Unit :=
  { nothrow_move := true, sizeof := 1, alignof := 1,
    ctor := .ok (), copy := fun _ => .ok (), move := fun _ => .ok ((), ()) }

/-- Embeds `Object2::print_hello() const`, called on the object behind `p`. -/
def print_hello {E : Type} (w : World Unit) (p : Ptr) : Outcome Unit E Unit :=
  match load w p with
  | some _ => (.ok (), w.emit (.print "Hello, I'm Object2!"))
  | none => (.error .bad_access, w)

/-- Embeds the block in `main` of `main.cpp`: `Object obj` default-constructs the
variant's only alternative `recursive_wrapper<Object2, 1>` (here at address 0),
`std::get<0>` converts it to `Object2&`, `print_hello` is called, and the scope
ends; the exit code is 0. -/
def main (pf : Platform) : Outcome Unit Unit Nat :=
  (construct_default Object2 pf 1 (World.empty Unit) 0).bind fun _ w1 =>
  (operator_T_ref Object2 w1 0).bind fun obj_ref w2 =>
  (print_hello w2 obj_ref).bind fun _ w3 =>
  (destruct Object2 w3 0).bind fun _ w4 => (.ok 0, w4)

/-- A 4-byte trivially copyable type such as `int`; a moved-from value keeps its
contents. -/
def Int32 : WrappedType Nat Unit :=
  { nothrow_move := true, sizeof := 4, alignof := 4,
    ctor := .ok 0, copy := fun v => .ok v, move := fun v => .ok (v, v) }

/-- A 64-byte type owning a resource: moving leaves the source empty (0); its
move constructor is not declared `noexcept`. -/
def Big : WrappedType Nat Unit :=
  { nothrow_move := false, sizeof := 64, alignof := 8,
    ctor := .ok 0, copy := fun v => .ok v, move := fun v => .ok (v, 0) }

/-- A type whose copy constructor raises an exception for the value 13, and whose move
constructor does so too unless it is declared `noexcept`. -/
def Fragile (nothrow_move : Bool) (size : Nat) : WrappedType Nat String :=
  { nothrow_move := nothrow_move, sizeof := size, alignof := 4,
    ctor := .ok 0,
    copy := fun v => if v = 13 then .error "copy failed" else .ok v,
    move := fun v =>
      if nothrow_move = false ∧ v = 13 then .error "move failed" else .ok (v, 0) }

/-- A 4-byte type whose move constructor always raises an exception (and is therefore
not declared `noexcept`). -/
def Unmovable : WrappedType Nat String :=
  { nothrow_move := false, sizeof := 4, alignof := 4,
    ctor := .ok 0, copy := fun v => .ok v, move := fun _ => .error "move failed" }

/-! ## Sequences of wrapper operations -/

/-- One operation of a client on wrappers, named by their addresses. -/
inductive wrapper_op where
  | default_construct (a : Nat)
  | copy_construct (a b : Nat)
  | move_construct (a b : Nat)
  | copy_assign (a b : Nat)
  | move_assign (a b : Nat)
  | destroy (a : Nat)
deriving DecidableEq, Repr

/-- Runs one operation. -/
def step {V E : Type} (T : WrappedType V E) (pf : Platform) (FixedStorageSize : Nat)
    (w : World V) : wrapper_op → Outcome V E Unit
  | .default_construct a => construct_default T pf FixedStorageSize w a
  | .copy_construct a b => construct_copy T w a b
  | .move_construct a b => construct_move T w a b
  | .copy_assign a b => (assign_copy T w a b).bind fun _ w1 => (.ok (), w1)
  | .move_assign a b => (assign_move T w a b).bind fun _ w1 => (.ok (), w1)
  | .destroy a => destruct T w a

/-- Runs a sequence of operations, stopping at the first one that does not complete. -/
def run {V E : Type} (T : WrappedType V E) (pf : Platform) (FixedStorageSize : Nat) :
    List wrapper_op → World V → Outcome V E Unit
  | [], w => (.ok (), w)
  | o :: os, w => (step T pf FixedStorageSize w o).bind fun _ w1 =>
      run T pf FixedStorageSize os w1

/-- Correct use of wrappers by a sequence of operations, given the addresses of the
wrappers alive before it: a wrapper is constructed where none is alive, sources and
targets of the other operations are alive, and at the end every wrapper has been
destroyed. -/
def well_used : List Nat → List wrapper_op → Bool
  | live, [] => live.isEmpty
  | live, .default_construct a :: os => !live.contains a && well_used (a :: live) os
  | live, .copy_construct a b :: os =>
      !live.contains a && live.contains b && well_used (a :: live) os
  | live, .move_construct a b :: os =>
      !live.contains a && live.contains b && well_used (a :: live) os
  | live, .copy_assign a b :: os => live.contains a && live.contains b && well_used live os
  | live, .move_assign a b :: os => live.contains a && live.contains b && well_used live os
  | live, .destroy a :: os => live.contains a && well_used (live.erase a) os

/-- The addresses of the wrappers alive after a correctly used sequence of operations,
given those alive before it; `none` if the sequence constructs a wrapper where one is
alive or uses one that is not. -/
def live_after : List Nat → List wrapper_op → Option (List Nat)
  | live, [] => some live
  | live, .default_construct a :: os =>
      if live.contains a then none else live_after (a :: live) os
  | live, .copy_construct a b :: os =>
      if !live.contains a && live.contains b then live_after (a :: live) os else none
  | live, .move_construct a b :: os =>
      if !live.contains a && live.contains b then live_after (a :: live) os else none
  | live, .copy_assign a b :: os =>
      if live.contains a && live.contains b then live_after live os else none
  | live, .move_assign a b :: os =>
      if live.contains a && live.contains b then live_after live os else none
  | live, .destroy a :: os =>
      if live.contains a then live_after (live.erase a) os else none

/-- The sequence uses neither the copy constructor nor the copy assignment operator. -/
def no_copy_operation : List wrapper_op → Bool
  | [] => true
  | .copy_construct _ _ :: _ => false
  | .copy_assign _ _ :: _ => false
  | _ :: os => no_copy_operation os

/-- The sequence uses neither the copy constructor nor the move constructor. -/
def no_copy_move_construction : List wrapper_op → Bool
  | [] => true
  | .copy_construct _ _ :: _ => false
  | .move_construct _ _ :: _ => false
  | _ :: os => no_copy_move_construction os

/-! ## Specification vocabulary -/

/-- The wrapper at address `a` is alive, bound to strategy `f`, and its cell holds
exactly one live `T` of value `v`: in its bytes under the inline strategy, in the heap
block its pointer slot designates under the external strategy. -/
def Live {V : Type} (w : World V) (a : Nat) (f : strategy_fn) (v : V) : Prop :=
  ∃ wr, w.objs a = some wr ∧ wr.storage_strategy_ = some f ∧
    match f with
    | .internal => wr.storage_ = .bytes (.live v)
    | .external => ∃ h, wr.storage_ = .ptr (.ext h) ∧ w.heap h = some (.live v)

/-- The heap block the pointer slot of the wrapper at `a` designates, if any. -/
def block_of {V : Type} (w : World V) (a : Nat) : Option Nat :=
  match w.objs a with
  | some wr =>
    match wr.storage_ with
    | .ptr (.ext h) => some h
    | _ => none
  | none => none

/-- Where the `T` of the wrapper at `a` is kept under strategy `f`: at the start of the
wrapper's own bytes, or in the heap block its pointer slot designates. -/
def value_ptr {V : Type} (w : World V) (a : Nat) : strategy_fn → Ptr
  | .internal => .inl a
  | .external =>
    match block_of w a with
    | some b => .ext b
    | none => .null

/-- The wrappers at `a` and `b` do not designate the same heap block. -/
def Separate {V : Type} (w : World V) (a b : Nat) : Prop :=
  block_of w a = none ∨ block_of w a ≠ block_of w b

/-- The step from `w` to `w2` left every wrapper other than the one at `a`, and every heap
block other than the one the wrapper at `a` designates, as it was, and did not redirect
the pointer slot of the wrapper at `a`. -/
def Frame {V : Type} (w w2 : World V) (a : Nat) : Prop :=
  (∀ x, x ≠ a → w2.objs x = w.objs x) ∧
  (∀ h, block_of w a ≠ some h → w2.heap h = w.heap h) ∧
  block_of w2 a = block_of w a ∧ w2.brk = w.brk

/-- Client code `wrapper.get() = x`: a write to the held `T` through the reference `get`
returns. -/
def write_through_get {V E : Type} (T : WrappedType V E) (w : World V) (self : Nat) (x : V) :
    Outcome V E Unit :=
  (get T w self).bind fun p w1 =>
    match load w1 p with
    | some _ => (.ok (), set_slot w1 p (.live x))
    | none => (.error .bad_access, w1)

/-- Client code `T x = wrapper.get()`: a read of the held `T` through the reference `get`
returns. -/
def read_through_get {V E : Type} (T : WrappedType V E) (w : World V) (self : Nat) :
    Outcome V E V :=
  (get T w self).bind fun p w1 =>
    match load w1 p with
    | some v => (.ok v, w1)
    | none => (.error .bad_access, w1)

/-- Two wrappers of `T` with `FixedStorageSize = 1` on the 64-bit platform, default
constructed at addresses 0 and 1, the second then given the value `x` through `get`. -/
def two_wrappers {E : Type} (T : WrappedType Nat E) (x : Nat) : World Nat :=
  (write_through_get T
    (construct_default T lp64 1 (construct_default T lp64 1 (World.empty Nat) 0).2 1).2 1 x).2

/-- The table the wrapper at `a` is bound to: `none` if there is no wrapper,
`some none` for the null function pointer. -/
def bound_table {V : Type} (w : World V) (a : Nat) : Option (Option strategy_fn) :=
  (w.objs a).map fun wr => wr.storage_strategy_

/-- Number of completed constructions of a `T` in a trace. -/
def payload_constructions (log : List Event) : Nat :=
  log.countP fun e => match e with
    | .constructed _ _ => true
    | _ => false

/-- Number of destructor runs of `T` in a trace. -/
def payload_destructions (log : List Event) : Nat :=
  log.countP fun e => match e with
    | .destroyed _ => true
    | _ => false

/-- Number of heap allocations in a trace. -/
def allocations (log : List Event) : Nat :=
  log.countP fun e => match e with
    | .allocated _ => true
    | _ => false

/-- Number of heap releases in a trace. -/
def releases (log : List Event) : Nat :=
  log.countP fun e => match e with
    | .released _ => true
    | _ => false

/-- The step from `w` to `w2` destroyed the `T` held by the wrapper at `a` (bound to `f`)
and built nothing in its place: the wrapper keeps its table and its pointer slot, its
cell holds no live `T`, the trace gained one destructor run and no construction,
allocation or release. -/
def Emptied {V : Type} (w w2 : World V) (a : Nat) (f : strategy_fn) : Prop :=
  bound_table w2 a = bound_table w a ∧
  block_of w2 a = block_of w a ∧
  slot_at w2 (value_ptr w a f) = some .dead ∧
  payload_constructions w2.log = payload_constructions w.log ∧
  payload_destructions w2.log = payload_destructions w.log + 1 ∧
  allocations w2.log = allocations w.log ∧
  releases w2.log = releases w.log

/-- Every constructor of `T` completes on every value. -/
def Total {V E : Type} (T : WrappedType V E) : Prop :=
  (∃ d, T.ctor = .ok d) ∧ (∀ v, ∃ c, T.copy v = .ok c) ∧ (∀ v, ∃ c r, T.move v = .ok (c, r))

/-- The memory `w` holds exactly the wrappers at the addresses `live`, all bound to `f`,
each with one live `T` in a cell of its own; every heap block belongs to one of them;
and the trace accounts for exactly these values: constructions exceed destructor runs
by the number of wrappers alive, and allocations exceed releases by the number of heap
blocks they own. -/
def Balanced {V : Type} (f : strategy_fn) (w : World V) (live : List Nat) : Prop :=
  live.Nodup ∧
  (∀ a, a ∈ live → ∃ v, Live w a f v) ∧
  (∀ a, a ∉ live → w.objs a = none) ∧
  (∀ a b, a ∈ live → b ∈ live → a ≠ b → Separate w a b) ∧
  (∀ h, w.brk ≤ h → w.heap h = none) ∧
  (∀ h, w.heap h ≠ none → ∃ a, a ∈ live ∧ block_of w a = some h) ∧
  payload_constructions w.log = payload_destructions w.log + live.length ∧
  allocations w.log = releases w.log +
    (match f with
      | .internal => 0
      | .external => live.length)

/-- The line a strategy function writes to `std::cout` on every call. -/
def strategy_name : strategy_fn → String
  | .internal => "internal_storage_strategy"
  | .external => "external_storage_strategy"

/-- A platform on which `P` is both the size and the alignment of an object pointer. -/
def pointer_platform (P : Nat) : Platform := { ptr_size := P, ptr_align := P }

/-- A relation `R` between a memory and a later one that every elementary memory change
made on behalf of the cell of the wrapper at `a` respects, as long as the storage
written, allocated or released is designated by a pointer in `S`. -/
structure Respects {V : Type} (R : World V → World V → Prop) (S : Ptr → Prop) (a : Nat) :
    Prop where
  refl : ∀ w, R w w
  trans : ∀ w1 w2 w3, R w1 w2 → R w2 w3 → R w1 w3
  emit : ∀ w e, R w (w.emit e)
  slot : ∀ w q s, S q → R w (set_slot w q s)
  alloc : ∀ w, S (.ext w.brk) → R w (allocate w)
  free : ∀ w h, S (.ext h) → R w (deallocate w h)
  store : ∀ w q, R w (set_external_storage_ w a q)

/-- The sequence consists of copy assignments and move assignments only. -/
def assignments_only : List wrapper_op → Bool
  | [] => true
  | .copy_assign _ _ :: os => assignments_only os
  | .move_assign _ _ :: os => assignments_only os
  | _ :: _ => false

/-- The pointer held in the pointer slot of the wrapper at `a`, if its union holds one. -/
def stored_pointer {V : Type} (w : World V) (a : Nat) : Option Ptr :=
  match w.objs a with
  | some wr =>
    match wr.storage_ with
    | .ptr q => some q
    | .bytes _ => none
  | none => none

/-- The storage a strategy call on the cell of the wrapper at `a` with argument `pValue`
may write: the cell's own bytes, the payload behind `pValue`, the block the cell's
pointer slot designates, and the block the next allocation returns. -/
def may_touch {V : Type} (w : World V) (a : Nat) (pValue : Ptr) (q : Ptr) : Prop :=
  q = .inl a ∨ q = pValue ∨ q = .ext w.brk ∨ stored_pointer w a = some q

/-- The step from `w` to `w2` left alone every wrapper other than the one at `a` whose
bytes no pointer in `S` designates, and every heap block no pointer in `S` designates. -/
def Untouched {V : Type} (S : Ptr → Prop) (a : Nat) (w w2 : World V) : Prop :=
  (∀ x, x ≠ a → ¬ S (.inl x) → w2.objs x = w.objs x) ∧
  (∀ h, ¬ S (.ext h) → w2.heap h = w.heap h)

/-! ## Basic facts about the memory model -/

@[simp] theorem upd_same {β : Type} (f : Nat → β) (a : Nat) (b : β) : upd f a b a = b := by
  simp [upd]

@[simp] theorem upd_other {β : Type} (f : Nat → β) (a x : Nat) (b : β) (h : x ≠ a) :
    upd f a b x = f x := by
  simp [upd, h]

@[simp] theorem bind_ok {V E α β : Type} (a : α) (w : World V)
    (k : α → World V → Outcome V E β) : Outcome.bind (.ok a, w) k = k a w := rfl

@[simp] theorem bind_error {V E α β : Type} (f : Fault E) (w : World V)
    (k : α → World V → Outcome V E β) :
    Outcome.bind ((.error f, w) : Outcome V E α) k = (.error f, w) := rfl

/-- The padded size of the storage union is never below `FixedStorageSize`. -/
theorem le_sizeof_storage_type (pf : Platform) (F : Nat) : F ≤ sizeof_storage_type pf F := by
  unfold sizeof_storage_type round_up
  have hk : 0 < alignof_storage_type pf := by unfold alignof_storage_type; omega
  generalize alignof_storage_type pf = k at hk
  have h1 : max F pf.ptr_size ≤ (max F pf.ptr_size + k - 1) / k * k := by
    have h2 := Nat.div_add_mod (max F pf.ptr_size + k - 1) k
    have h3 := Nat.mod_lt (max F pf.ptr_size + k - 1) hk
    have h4 : (max F pf.ptr_size + k - 1) / k * k = k * ((max F pf.ptr_size + k - 1) / k) :=
      Nat.mul_comm _ _
    omega
  exact le_trans (le_max_left _ _) h1

/-! ## C2: the storage decision -/

/-- The storage decision unfolded into its three tests. -/
theorem use_internal_storage_v_true {V E : Type} (T : WrappedType V E) (size alignment : Nat) :
    use_internal_storage_v T size alignment = true ↔
      T.nothrow_move = true ∧ T.sizeof ≤ size ∧ alignment % T.alignof = 0 := by
  simp [use_internal_storage_v, and_assoc]

/-- C2: `use_internal_storage_v<T, size, alignment>` is true exactly when `T` is
nothrow-move-constructible, `sizeof(T) <= size` and `alignment % alignof(T) == 0`;
its value depends on nothing but these three traits of `T` and the two numbers. -/
theorem use_internal_storage_v_iff {V E : Type} (T : WrappedType V E) (size alignment : Nat) :
    (use_internal_storage_v T size alignment = true ↔
      T.nothrow_move = true ∧ T.sizeof ≤ size ∧ alignment % T.alignof = 0) ∧
    (∀ {V2 E2 : Type} (T2 : WrappedType V2 E2),
      T2.nothrow_move = T.nothrow_move → T2.sizeof = T.sizeof → T2.alignof = T.alignof →
      use_internal_storage_v T2 size alignment = use_internal_storage_v T size alignment) := by
  refine ⟨use_internal_storage_v_true T size alignment, ?_⟩
  intro V2 E2 T2 h1 h2 h3
  have ha := use_internal_storage_v_true T size alignment
  have hb := use_internal_storage_v_true T2 size alignment
  rw [h1, h2, h3] at hb
  cases hx : use_internal_storage_v T size alignment
  · cases hy : use_internal_storage_v T2 size alignment
    · rfl
    · rw [ha.2 (hb.1 hy)] at hx
      cases hx
  · exact hb.2 (ha.1 hx)

/-- C2 at a concrete input: `Object2` and `Fragile`, which agree on no constructor,
get the same answer as soon as their three traits agree. -/
theorem use_internal_storage_v_iff_witness :
    use_internal_storage_v (Fragile true 1) 8 8 = use_internal_storage_v
      { Object2 with alignof := 4 } 8 8 :=
  (use_internal_storage_v_iff { Object2 with alignof := 4 } 8 8).2 (Fragile true 1) rfl rfl rfl

/-! ## C1, C3: default construction -/

/-- The memory after the member initialisers and the assignment to `storage_strategy_`
in the default constructor: the wrapper exists, bound to `f`, its pointer slot null. -/
theorem objs_after_binding {V : Type} (w : World V) (self : Nat) (f : strategy_fn) :
    (set_storage_strategy_ (begin_object w self) self f).objs self =
      some { storage_ := .ptr .null, storage_strategy_ := some f } := by
  simp [set_storage_strategy_, begin_object]

/-- Default construction under a strategy, with a default constructor that completes. -/
theorem construct_default_ok {V E : Type} (T : WrappedType V E) (pf : Platform) (F : Nat)
    (w : World V) (self : Nat) (d : V) (hd : T.ctor = .ok d) :
    (construct_default T pf F w self).1 = .ok () ∧
      Live (construct_default T pf F w self).2 self (select_strategy T pf F) d ∧
      (∀ x, x ≠ self → (construct_default T pf F w self).2.objs x = w.objs x) ∧
      payload_constructions (construct_default T pf F w self).2.log =
        payload_constructions w.log + 1 ∧
      payload_destructions (construct_default T pf F w self).2.log =
        payload_destructions w.log := by
  cases hf : select_strategy T pf F with
  | internal =>
    simp [construct_default, invoke, hf, set_storage_strategy_, begin_object, call_strategy,
        internal_storage_strategy, construct_at, slot_at, World.emit, hd, set_slot, Live,
        payload_constructions, payload_destructions, List.countP_append]
    intro x hx
    simp [upd, hx]
  | external =>
    simp [construct_default, invoke, hf, set_storage_strategy_, begin_object, call_strategy,
        external_storage_strategy, new_expr, allocate, construct_at, slot_at, World.emit, hd,
        set_slot, set_external_storage_, Live,
        payload_constructions, payload_destructions, List.countP_append]
    intro x hx
    simp [upd, hx]

/-- Reading a live wrapper: `get_pointer` returns a non-null pointer to the held value
and changes nothing but the output stream. -/
theorem get_pointer_of_live {V E : Type} (T : WrappedType V E) (w : World V) (a : Nat)
    (f : strategy_fn) (v : V) (h : Live w a f v) :
    ∃ p, get_pointer T w a = ((.ok p : Except (Fault E) Ptr), w.emit (.print (strategy_name f))) ∧
      p ≠ .null ∧ load w p = some v ∧ p = value_ptr w a f := by
  obtain ⟨wr, hwr, hs, hc⟩ := h
  cases f with
  | internal =>
    refine ⟨.inl a, ?_, by simp, ?_, rfl⟩
    · simp [get_pointer, invoke, hwr, hs, call_strategy, internal_storage_strategy,
        strategy_name]
    · simp at hc
      simp [load, slot_at, hwr, hc]
  | external =>
    obtain ⟨b, hb, hv⟩ := hc
    refine ⟨.ext b, ?_, by simp, ?_, ?_⟩
    · simp [get_pointer, invoke, hwr, hs, call_strategy, external_storage_strategy,
        strategy_name, World.emit, hb]
    · simp [load, slot_at, hv]
    · simp [value_ptr, block_of, hwr, hb]

/-- Emitting an event does not change what a pointer designates. -/
@[simp] theorem load_emit {V : Type} (w : World V) (e : Event) (p : Ptr) :
    load (w.emit e) p = load w p := by
  cases p <;> rfl

/-- C3: with a default constructor of `T` that yields `d`, default construction
completes, binds the Operation Table chosen by the Storage Decision and runs exactly one
construction of a `T`: the cell holds one live `T` equal to `d`, and `get_pointer`, `get`
and the conversion operator to `T&` succeed and designate that `d`. -/
theorem default_construct_readable {V E : Type} (T : WrappedType V E) (pf : Platform)
    (F : Nat) (w : World V) (self : Nat) (d : V) (hd : T.ctor = .ok d) :
    (construct_default T pf F w self).1 = .ok () ∧
    bound_table (construct_default T pf F w self).2 self =
      some (some (select_strategy T pf F)) ∧
    Live (construct_default T pf F w self).2 self (select_strategy T pf F) d ∧
    payload_constructions (construct_default T pf F w self).2.log =
      payload_constructions w.log + 1 ∧
    payload_destructions (construct_default T pf F w self).2.log =
      payload_destructions w.log ∧
    ∃ p, (get_pointer T (construct_default T pf F w self).2 self).1 = .ok p ∧
      (get T (construct_default T pf F w self).2 self).1 = .ok p ∧
      (operator_T_ref T (construct_default T pf F w self).2 self).1 = .ok p ∧
      load (get_pointer T (construct_default T pf F w self).2 self).2 p = some d := by
  obtain ⟨h1, h2, _, h4, h5⟩ := construct_default_ok T pf F w self d hd
  obtain ⟨p, hp, _, hl, _⟩ := get_pointer_of_live T _ self _ d h2
  refine ⟨h1, ?_, h2, h4, h5, p, ?_, ?_, ?_, ?_⟩
  · obtain ⟨wr, hwr, hs, _⟩ := h2
    simp [bound_table, hwr, hs]
  · rw [hp]
  · simp only [get]; rw [hp]
  · simp only [operator_T_ref, get]; rw [hp]
  · rw [hp]; simpa using hl

/-- C3 on the demonstration program: the wrapper of `Object2` with `FixedStorageSize = 1`
is default-constructed and read through `operator T&()`, and `main` runs to its end with exit code 0, having
printed the greeting between the strategy's own lines. -/
theorem default_construct_readable_witness :
    ((construct_default Object2 lp64 1 (World.empty Unit) 0).1 = .ok () ∧
    bound_table (construct_default Object2 lp64 1 (World.empty Unit) 0).2 0 =
      some (some (select_strategy Object2 lp64 1)) ∧
    Live (construct_default Object2 lp64 1 (World.empty Unit) 0).2 0
      (select_strategy Object2 lp64 1) () ∧
    payload_constructions (construct_default Object2 lp64 1 (World.empty Unit) 0).2.log =
      payload_constructions (World.empty Unit).log + 1 ∧
    payload_destructions (construct_default Object2 lp64 1 (World.empty Unit) 0).2.log =
      payload_destructions (World.empty Unit).log ∧
    ∃ p, (get_pointer Object2 (construct_default Object2 lp64 1 (World.empty Unit) 0).2 0).1
        = .ok p ∧
      (get Object2 (construct_default Object2 lp64 1 (World.empty Unit) 0).2 0).1 = .ok p ∧
      (operator_T_ref Object2 (construct_default Object2 lp64 1 (World.empty Unit) 0).2 0).1
        = .ok p ∧
      load (get_pointer Object2 (construct_default Object2 lp64 1 (World.empty Unit) 0).2 0).2 p
        = some ()) ∧
    (main lp64).1 = .ok 0 ∧
    (main lp64).2.log =
      [.print "internal_storage_strategy", .constructed (.inl 0) .by_default,
       .print "internal_storage_strategy", .print "Hello, I'm Object2!",
       .print "internal_storage_strategy", .destroyed (.inl 0)] :=
  ⟨default_construct_readable Object2 lp64 1 (World.empty Unit) 0 () rfl, rfl, rfl⟩

/-- Whatever the default constructor of `T` does, the wrapper built by default
construction is bound to the table the conditional expression selects. -/
theorem bound_table_construct_default {V E : Type} (T : WrappedType V E) (pf : Platform)
    (F : Nat) (w : World V) (self : Nat) :
    bound_table (construct_default T pf F w self).2 self =
      some (some (select_strategy T pf F)) := by
  cases hf : select_strategy T pf F with
  | internal =>
    cases hd : T.ctor <;>
    simp [construct_default, invoke, hf, set_storage_strategy_, begin_object, call_strategy,
        internal_storage_strategy, construct_at, slot_at, World.emit, hd, set_slot,
        bound_table]
  | external =>
    cases hd : T.ctor <;>
    simp [construct_default, invoke, hf, set_storage_strategy_, begin_object, call_strategy,
        external_storage_strategy, new_expr, allocate, deallocate, construct_at, slot_at,
        World.emit, hd, set_slot, set_external_storage_, bound_table]

/-- C1, refuted as stated: with `FixedStorageSize = 1` on a 64-bit platform a 4-byte
nothrow-movable `T` is larger than the `FixedStorageSize`-byte region, yet default
construction binds the inline table, not the external one. -/
theorem default_construct_larger_than_fixed_size_inline :
    Int32.sizeof > 1 ∧
    bound_table (construct_default Int32 lp64 1 (World.empty Nat) 0).2 0 =
      some (some .internal) ∧
    bound_table (construct_default Int32 lp64 1 (World.empty Nat) 0).2 0 ≠
      some (some .external) := by
  refine ⟨by decide, rfl, ?_⟩
  rw [show bound_table (construct_default Int32 lp64 1 (World.empty Nat) 0).2 0 =
      some (some .internal) from rfl]
  decide

/-- C1, amended: a default-constructed wrapper binds the inline table when `T` is
nothrow-move-constructible, `sizeof(T) <= FixedStorageSize` and the alignment of the
storage union is a multiple of `alignof(T)`; it binds the external table whenever
`sizeof(T)` exceeds the size of the storage union (`FixedStorageSize` raised to at least
one pointer and padded to the union's alignment), or the alignment of the union is not a
multiple of `alignof(T)`, or `T` is not nothrow-move-constructible. -/
theorem default_construct_binds {V E : Type} (T : WrappedType V E) (pf : Platform)
    (F : Nat) (w : World V) (self : Nat) :
    (T.nothrow_move = true → T.sizeof ≤ F → alignof_storage_type pf % T.alignof = 0 →
      bound_table (construct_default T pf F w self).2 self = some (some .internal)) ∧
    (T.sizeof > sizeof_storage_type pf F ∨ alignof_storage_type pf % T.alignof ≠ 0 ∨
        T.nothrow_move = false →
      bound_table (construct_default T pf F w self).2 self = some (some .external)) := by
  rw [bound_table_construct_default]
  have hiff := use_internal_storage_v_true T (sizeof_storage_type pf F)
    (alignof_storage_type pf)
  refine ⟨?_, ?_⟩
  · intro h1 h2 h3
    have : use_internal_storage_v T (sizeof_storage_type pf F) (alignof_storage_type pf)
        = true := hiff.2 ⟨h1, le_trans h2 (le_sizeof_storage_type pf F), h3⟩
    simp [select_strategy, this]
  · intro h
    have : ¬ use_internal_storage_v T (sizeof_storage_type pf F) (alignof_storage_type pf)
        = true := by
      intro hu
      obtain ⟨h1, h2, h3⟩ := hiff.1 hu
      rcases h with h | h | h
      · omega
      · exact h h3
      · simp [h1] at h
    simp [select_strategy, this]

/-- C1 (amended) at concrete inputs: `Object2` with `FixedStorageSize = 1` binds the
inline table; the 64-byte `Big` with `FixedStorageSize = 1` binds the external one. -/
theorem default_construct_binds_witness :
    bound_table (construct_default Object2 lp64 1 (World.empty Unit) 0).2 0 =
      some (some .internal) ∧
    bound_table (construct_default Big lp64 1 (World.empty Nat) 0).2 0 =
      some (some .external) :=
  ⟨(default_construct_binds Object2 lp64 1 (World.empty Unit) 0).1 rfl (by decide) rfl,
   (default_construct_binds Big lp64 1 (World.empty Nat) 0).2 (Or.inl (by decide))⟩

/-! ## C4, C5: copy construction and move construction -/

/-- The read-pointer operation changes neither the wrappers nor the heap. -/
theorem get_pointer_frame {V E : Type} (T : WrappedType V E) (w : World V) (a : Nat) :
    (get_pointer T w a).2.objs = w.objs ∧ (get_pointer T w a).2.heap = w.heap ∧
    (get_pointer T w a).2.brk = w.brk := by
  unfold get_pointer invoke
  cases hw : w.objs a with
  | none => simp
  | some wr =>
    rcases wr with ⟨st, sf⟩
    rcases sf with _ | f
    · simp [call_strategy]
    · cases f with
      | internal => simp [call_strategy, internal_storage_strategy, World.emit]
      | external =>
        simp only [call_strategy, external_storage_strategy, World.emit, hw]
        cases st with
        | bytes s => simp
        | ptr q =>
          by_cases hq : q = .null
          · simp [hq]
          · simp [hq]

/-- A call through the table of a wrapper that the member initialisers have just set up
is a call through a null function pointer. -/
theorem invoke_unbound {V E : Type} (T : WrappedType V E) (w : World V) (self : Nat)
    (st : storage_type V) (op : storage_operation) (p : Ptr)
    (h : w.objs self = some { storage_ := st, storage_strategy_ := none }) :
    invoke T w self op p = ((.error .null_call : Except (Fault E) Ptr), w) := by
  simp [invoke, h, call_strategy]

/-- Whatever `other` is, after the member initialisers and the evaluation of
`other.get_pointer()` the wrapper under construction is still unbound. -/
theorem objs_self_after_get_pointer {V E : Type} (T : WrappedType V E) (w : World V)
    (self other : Nat) :
    (get_pointer T (begin_object w self) other).2.objs self =
      some { storage_ := .ptr .null, storage_strategy_ := none } := by
  rw [(get_pointer_frame T (begin_object w self) other).1]
  simp [begin_object]

/-- C5 on the code: neither the copy constructor nor the move constructor assigns
`storage_strategy_`. For every memory, every target and every source the wrapper under
construction is left bound to the null function pointer, not to the table default
construction binds, and the constructor never completes. -/
theorem copy_move_construct_leave_table_unbound {V E : Type} (T : WrappedType V E)
    (pf : Platform) (F : Nat) (w : World V) (self other : Nat) :
    bound_table (construct_copy T w self other).2 self = some none ∧
    bound_table (construct_move T w self other).2 self = some none ∧
    bound_table (construct_default T pf F w self).2 self =
      some (some (select_strategy T pf F)) ∧
    (∀ u, (construct_copy T w self other).1 ≠ .ok u) ∧
    (∀ u, (construct_move T w self other).1 ≠ .ok u) := by
  have hobj := objs_self_after_get_pointer (E := E) T w self other
  refine ⟨?_, ?_, bound_table_construct_default T pf F w self, ?_, ?_⟩
  all_goals
    simp only [construct_copy, construct_move]
    rcases hg : get_pointer T (begin_object w self) other with ⟨r, w1⟩
    rw [hg] at hobj
    replace hobj : w1.objs self = some { storage_ := .ptr .null, storage_strategy_ := none } :=
      hobj
    cases r with
    | error e => simp [bound_table, hobj]
    | ok p => simp [bound_table, invoke_unbound T w1 self _ _ p hobj, hobj]

/-- Starting the construction of a wrapper at another address keeps a live wrapper. -/
theorem live_begin_object {V : Type} (w : World V) (self a : Nat) (f : strategy_fn) (v : V)
    (hne : self ≠ a) (h : Live w a f v) : Live (begin_object w self) a f v := by
  obtain ⟨wr, hwr, hs, hc⟩ := h
  refine ⟨wr, ?_, hs, ?_⟩
  · simp [begin_object, upd, Ne.symm hne, hwr]
  · cases f <;> simpa [begin_object] using hc

/-- C4 on the code: for every source wrapper holding a live `v` under either strategy,
copy construction and move construction from it end in a call through the null function
pointer, and so does reading the wrapper they were building; no value equal to `v` is
read back. -/
theorem construct_from_live_source_calls_null {V E : Type} (T : WrappedType V E)
    (w : World V) (f : strategy_fn) (v : V) (self other : Nat) (hne : self ≠ other)
    (h : Live w other f v) :
    (construct_copy T w self other).1 = .error .null_call ∧
    (get T (construct_copy T w self other).2 self).1 = .error .null_call ∧
    (construct_move T w self other).1 = .error .null_call ∧
    (get T (construct_move T w self other).2 self).1 = .error .null_call := by
  have hl := live_begin_object w self other f v hne h
  obtain ⟨p, hp, _, _, _⟩ := get_pointer_of_live (E := E) T _ other f v hl
  have hobj : ((begin_object w self).emit (.print (strategy_name f))).objs self =
      some { storage_ := .ptr .null, storage_strategy_ := none } := by
    simp [begin_object, World.emit]
  have hc : construct_copy T w self other = ((.error .null_call : Except (Fault E) Unit),
      (begin_object w self).emit (.print (strategy_name f))) := by
    simp only [construct_copy, hp, bind_ok, invoke_unbound T _ self _ _ _ hobj, bind_error]
  have hm : construct_move T w self other = ((.error .null_call : Except (Fault E) Unit),
      (begin_object w self).emit (.print (strategy_name f))) := by
    simp only [construct_move, hp, bind_ok, invoke_unbound T _ self _ _ _ hobj, bind_error]
  have hg : get T ((begin_object w self).emit (.print (strategy_name f))) self =
      ((.error .null_call : Except (Fault E) Ptr),
        (begin_object w self).emit (.print (strategy_name f))) := by
    simp only [get, get_pointer, invoke_unbound T _ self _ _ _ hobj, bind_error]
  rw [hc, hm]
  exact ⟨rfl, by rw [hg], rfl, by rw [hg]⟩

/-- C4 at the failing input: `recursive_wrapper<int, 1> a; recursive_wrapper<int, 1> b(a);`
and `recursive_wrapper<int, 1> b(std::move(a));`, with `a` at address 0 and `b` at 1. -/
theorem construct_from_live_source_calls_null_witness :
    (construct_copy Int32 (construct_default Int32 lp64 1 (World.empty Nat) 0).2 1 0).1
      = .error .null_call ∧
    (get Int32
      (construct_copy Int32 (construct_default Int32 lp64 1 (World.empty Nat) 0).2 1 0).2 1).1
      = .error .null_call ∧
    (construct_move Int32 (construct_default Int32 lp64 1 (World.empty Nat) 0).2 1 0).1
      = .error .null_call ∧
    (get Int32
      (construct_move Int32 (construct_default Int32 lp64 1 (World.empty Nat) 0).2 1 0).2 1).1
      = .error .null_call :=
  construct_from_live_source_calls_null Int32 _ .internal 0 1 0 (by decide)
    ⟨_, rfl, rfl, rfl⟩

/-! ## Assignment between two live wrappers -/

/-- A live wrapper stays live with the same value across a step that leaves it and the
heap block it designates alone. -/
theorem live_of_unchanged {V : Type} (w w2 : World V) (x : Nat) (f : strategy_fn) (v : V)
    (h : Live w x f v) (hobj : w2.objs x = w.objs x)
    (hheap : ∀ b, block_of w x = some b → w2.heap b = w.heap b) : Live w2 x f v := by
  obtain ⟨wr, hwr, hs, hc⟩ := h
  refine ⟨wr, by rw [hobj, hwr], hs, ?_⟩
  cases f with
  | internal => exact hc
  | external =>
    obtain ⟨b, hb, hv⟩ := hc
    refine ⟨b, hb, ?_⟩
    rw [hheap b (by simp [block_of, hwr, hb]), hv]

/-- A wrapper separate from the one a step was framed on keeps its value. -/
theorem live_of_frame {V : Type} (w w2 : World V) (a x : Nat) (f : strategy_fn) (v : V)
    (hfr : Frame w w2 a) (hx : x ≠ a) (hsep : Separate w a x) (h : Live w x f v) :
    Live w2 x f v := by
  refine live_of_unchanged w w2 x f v h (hfr.1 x hx) ?_
  intro b hb
  refine hfr.2.1 b (fun hab => ?_)
  rcases hsep with h | h
  · rw [h] at hab; cases hab
  · exact h (by rw [hab, hb])

/-- Copy assignment between two distinct live wrappers, under either strategy, when the
copy constructor of `T` yields `c` from the source's value. -/
theorem assign_copy_live {V E : Type} (T : WrappedType V E) (w : World V) (f : strategy_fn)
    (a b : Nat) (va vb c : V) (hab : a ≠ b) (ha : Live w a f va) (hb : Live w b f vb)
    (hsep : Separate w a b) (hcopy : T.copy vb = .ok c) :
    (assign_copy T w a b).1 = .ok a ∧ Live (assign_copy T w a b).2 a f c ∧
    Frame w (assign_copy T w a b).2 a := by
  obtain ⟨p, hp, hpn, hload, hpv⟩ := get_pointer_of_live (E := E) T w b f vb hb
  obtain ⟨wra, hwra, hsa, hca⟩ := ha
  obtain ⟨wrb, hwrb, hsb, hcb⟩ := hb
  rcases wra with ⟨sta, sfa⟩
  rcases wrb with ⟨stb, sfb⟩
  simp only at hsa hsb hca hcb
  subst hsa hsb
  cases f with
  | internal =>
    simp only at hca hcb
    subst hca hcb hpv
    simp [assign_copy, hab, hp, invoke, World.emit, hwra, call_strategy,
      internal_storage_strategy, destroy_at, slot_at, set_slot, copy_construct_at, load,
      upd, Ne.symm hab, hwrb, hcopy, Live, Frame, block_of, value_ptr]
    intro x hx
    simp [hx]
  | external =>
    obtain ⟨ba, hsta, hva⟩ := hca
    obtain ⟨bb, hstb, hvb⟩ := hcb
    subst hsta hstb
    have hne : ba ≠ bb := by
      intro h
      rcases hsep with h1 | h1
      · simp [block_of, hwra] at h1
      · simp [block_of, hwra, hwrb, h] at h1
    have hpb : p = .ext bb := by simp [hpv, value_ptr, block_of, hwrb]
    subst hpb
    simp [assign_copy, hab, hp, invoke, World.emit, hwra, call_strategy,
      external_storage_strategy, destroy_at, slot_at, set_slot, copy_construct_at, load,
      upd, Ne.symm hne, hva, hvb, hcopy, Live, Frame, block_of]
    intro h hh
    simp [Ne.symm hh]

/-- A read through `get` of a live wrapper yields the held value. -/
theorem read_through_get_live {V E : Type} (T : WrappedType V E) (w : World V) (a : Nat)
    (f : strategy_fn) (v : V) (h : Live w a f v) :
    (read_through_get T w a).1 = .ok v := by
  obtain ⟨p, hp, _, hload, _⟩ := get_pointer_of_live (E := E) T w a f v h
  simp [read_through_get, get, hp, hload]

/-- A write through `get` of a live wrapper replaces the held value and touches nothing
outside that wrapper's cell. -/
theorem write_through_get_live {V E : Type} (T : WrappedType V E) (w : World V) (a : Nat)
    (f : strategy_fn) (v x : V) (h : Live w a f v) :
    (write_through_get T w a x).1 = .ok () ∧ Live (write_through_get T w a x).2 a f x ∧
    Frame w (write_through_get T w a x).2 a := by
  obtain ⟨p, hp, _, hload, hpv⟩ := get_pointer_of_live (E := E) T w a f v h
  obtain ⟨wr, hwr, hs, hc⟩ := h
  rcases wr with ⟨st, sf⟩
  simp only at hs hc
  subst hs
  cases f with
  | internal =>
    simp only at hc
    subst hc hpv
    simp only [write_through_get, get, hp, bind_ok, load_emit, hload]
    simp [value_ptr, set_slot, World.emit, hwr, Live, Frame, block_of]
    intro x hx
    simp [upd, hx]
  | external =>
    obtain ⟨b, hst, hv⟩ := hc
    subst hst
    have hpb : p = .ext b := by simp [hpv, value_ptr, block_of, hwr]
    subst hpb
    simp only [write_through_get, get, hp, bind_ok, load_emit, hload]
    simp [set_slot, World.emit, hwr, Live, Frame, block_of]
    intro h hh
    simp [upd, Ne.symm hh]

/-- A step framed on `a` keeps `a` separate from every wrapper it was separate from. -/
theorem separate_of_frame {V : Type} (w w2 : World V) (a x : Nat)
    (hfr : Frame w w2 a) (hx : x ≠ a) (hsep : Separate w a x) : Separate w2 a x := by
  unfold Separate at *
  have hbx : block_of w2 x = block_of w x := by
    simp [block_of, hfr.1 x hx]
  rw [hfr.2.2.1, hbx]
  exact hsep

/-! ## C7: move assignment -/

/-- Move assignment between two distinct live wrappers, under either strategy, when the
move constructor of `T` yields `c` from the source's value and leaves `r` behind. -/
theorem assign_move_live {V E : Type} (T : WrappedType V E) (w : World V) (f : strategy_fn)
    (a b : Nat) (va vb c r : V) (hab : a ≠ b) (ha : Live w a f va) (hb : Live w b f vb)
    (hsep : Separate w a b) (hmove : T.move vb = .ok (c, r)) :
    (assign_move T w a b).1 = .ok a ∧ Live (assign_move T w a b).2 a f c ∧
    Live (assign_move T w a b).2 b f r ∧
    bound_table (assign_move T w a b).2 b = bound_table w b ∧
    block_of (assign_move T w a b).2 b = block_of w b ∧
    block_of (assign_move T w a b).2 a = block_of w a ∧
    (∀ x, x ≠ a → x ≠ b → (assign_move T w a b).2.objs x = w.objs x) := by
  obtain ⟨p, hp, hpn, hload, hpv⟩ := get_pointer_of_live (E := E) T w b f vb hb
  obtain ⟨wra, hwra, hsa, hca⟩ := ha
  obtain ⟨wrb, hwrb, hsb, hcb⟩ := hb
  rcases wra with ⟨sta, sfa⟩
  rcases wrb with ⟨stb, sfb⟩
  simp only at hsa hsb hca hcb
  subst hsa hsb
  cases f with
  | internal =>
    simp only at hca hcb
    subst hca hcb hpv
    simp [assign_move, hab, hp, invoke, World.emit, hwra, call_strategy,
      internal_storage_strategy, destroy_at, slot_at, set_slot, move_construct_at, load,
      upd, Ne.symm hab, hwrb, hmove, Live, block_of, value_ptr, bound_table]
    intro x hxa hxb
    simp [hxa, hxb]
  | external =>
    obtain ⟨ba, hsta, hva⟩ := hca
    obtain ⟨bb, hstb, hvb⟩ := hcb
    subst hsta hstb
    have hne : ba ≠ bb := by
      intro h
      rcases hsep with h1 | h1
      · simp [block_of, hwra] at h1
      · simp [block_of, hwra, hwrb, h] at h1
    have hpb : p = .ext bb := by simp [hpv, value_ptr, block_of, hwrb]
    subst hpb
    simp [assign_move, hab, hp, invoke, World.emit, hwra, call_strategy,
      external_storage_strategy, destroy_at, slot_at, set_slot, move_construct_at, load,
      upd, Ne.symm hne, hne, hva, hvb, hmove, Live, block_of, hwrb, bound_table]

/-- Destruction of a live wrapper completes, runs the destructor of `T` exactly once,
releases exactly one heap block under the external strategy and none under the inline
one, and leaves no wrapper at the address. -/
theorem destruct_live {V E : Type} (T : WrappedType V E) (w : World V) (f : strategy_fn)
    (a : Nat) (v : V) (h : Live w a f v) :
    (destruct T w a : Outcome V E Unit).1 = .ok () ∧
    (destruct T w a : Outcome V E Unit).2.objs a = none ∧
    payload_destructions (destruct T w a : Outcome V E Unit).2.log =
      payload_destructions w.log + 1 ∧
    payload_constructions (destruct T w a : Outcome V E Unit).2.log =
      payload_constructions w.log ∧
    releases (destruct T w a : Outcome V E Unit).2.log =
      releases w.log + (match f with
        | .internal => 0
        | .external => 1) ∧
    allocations (destruct T w a : Outcome V E Unit).2.log = allocations w.log := by
  obtain ⟨wr, hwr, hs, hc⟩ := h
  rcases wr with ⟨st, sf⟩
  simp only at hs hc
  subst hs
  cases f with
  | internal =>
    simp only at hc
    subst hc
    simp [destruct, invoke, hwr, call_strategy, internal_storage_strategy, destroy_at,
      slot_at, World.emit, set_slot, payload_destructions, payload_constructions, releases,
      allocations, List.countP_append]
  | external =>
    obtain ⟨b, hst, hv⟩ := hc
    subst hst
    simp [destruct, invoke, hwr, call_strategy, external_storage_strategy, destroy_at,
      delete_expr, deallocate, slot_at, World.emit, set_slot, hv, payload_destructions,
      payload_constructions, releases, allocations, List.countP_append]

/-- C7: for two distinct live wrappers `a` and `b` bound to the same strategy that do not
share a heap block, when the move constructor of `T` yields `c` from the value `vb` held
in `b` and leaves the moved-from state `r` (so `c` equals `vb` for a move constructor
that transfers the value), `a = std::move(b)` returns `a`; reading `a` then yields `c`;
`b` keeps its bound Operation Table and its pointer slot and holds exactly one live `T`,
the moved-from `r`; and the later destruction of `b` completes and runs exactly one
destructor. -/
theorem move_assign_keeps_source_cell {V E : Type} (T : WrappedType V E) (w : World V)
    (f : strategy_fn) (a b : Nat) (va vb c r : V) (hab : a ≠ b) (ha : Live w a f va)
    (hb : Live w b f vb) (hsep : Separate w a b) (hmove : T.move vb = .ok (c, r)) :
    (assign_move T w a b).1 = .ok a ∧
    (read_through_get T (assign_move T w a b).2 a).1 = .ok c ∧
    Live (assign_move T w a b).2 b f r ∧
    bound_table (assign_move T w a b).2 b = bound_table w b ∧
    block_of (assign_move T w a b).2 b = block_of w b ∧
    (destruct T (assign_move T w a b).2 b : Outcome V E Unit).1 = .ok () ∧
    payload_destructions (destruct T (assign_move T w a b).2 b : Outcome V E Unit).2.log =
      payload_destructions (assign_move T w a b).2.log + 1 := by
  obtain ⟨h1, h2, h3, h4, h5, _, _⟩ :=
    assign_move_live T w f a b va vb c r hab ha hb hsep hmove
  obtain ⟨d1, _, d3, _⟩ := destruct_live (E := E) T _ f b r h3
  exact ⟨h1, read_through_get_live T _ a f c h2, h3, h4, h5, d1, d3⟩

/-- C7 at concrete inputs: wrapper 0 holds 0 and wrapper 1 holds 7. After
`w0 = std::move(w1)` wrapper 0 reads 7; under the external strategy (`Big`) wrapper 1
holds the moved-from 0 in its own block 1, under the inline strategy (`Int32`) it still
holds 7; destroying wrapper 1 completes. -/
theorem move_assign_keeps_source_cell_witness :
    ((read_through_get Big (assign_move Big (two_wrappers Big 7) 0 1).2 0).1 = .ok 7 ∧
      Live (assign_move Big (two_wrappers Big 7) 0 1).2 1 .external 0 ∧
      block_of (assign_move Big (two_wrappers Big 7) 0 1).2 1 = some 1 ∧
      (destruct Big (assign_move Big (two_wrappers Big 7) 0 1).2 1 :
        Outcome Nat Unit Unit).1 = .ok ()) ∧
    ((read_through_get Int32 (assign_move Int32 (two_wrappers Int32 7) 0 1).2 0).1 = .ok 7 ∧
      Live (assign_move Int32 (two_wrappers Int32 7) 0 1).2 1 .internal 7 ∧
      (destruct Int32 (assign_move Int32 (two_wrappers Int32 7) 0 1).2 1 :
        Outcome Nat Unit Unit).1 = .ok ()) :=
  have he := move_assign_keeps_source_cell Big (two_wrappers Big 7) .external 0 1 0 7 7 0
    (by decide) ⟨_, rfl, rfl, 0, rfl, rfl⟩ ⟨_, rfl, rfl, 1, rfl, rfl⟩ (Or.inr (by decide)) rfl
  have hi := move_assign_keeps_source_cell Int32 (two_wrappers Int32 7) .internal 0 1 0 7 7 7
    (by decide) ⟨_, rfl, rfl, rfl⟩ ⟨_, rfl, rfl, rfl⟩ (Or.inl rfl) rfl
  ⟨⟨he.2.1, he.2.2.1, he.2.2.2.2.1.trans rfl, he.2.2.2.2.2.1⟩,
   ⟨hi.2.1, hi.2.2.1, hi.2.2.2.2.2.1⟩⟩

/-! ## C10: a failing move constructor during move assignment -/

/-- C10, refuted as stated: wrappers 0 and 1 of `Fragile` live under the external
strategy, wrapper 0 holding 0 and wrapper 1 holding 13, a value the move constructor
refuses. The move assignment `w0 = std::move(w1)` propagates the exception, and
afterwards wrapper 0 is still there, bound to its table, with no live `T` in its cell:
its heap block holds destroyed storage, and `get_pointer` hands out the address of that
storage. -/
theorem move_assign_failure_leaves_cell_empty :
    (assign_move (Fragile false 4) (two_wrappers (Fragile false 4) 13) 0 1).1
      = .error (.thrown "move failed") ∧
    bound_table (assign_move (Fragile false 4) (two_wrappers (Fragile false 4) 13) 0 1).2 0
      = some (some .external) ∧
    slot_at (assign_move (Fragile false 4) (two_wrappers (Fragile false 4) 13) 0 1).2
      (.ext 0) = some .dead ∧
    (get_pointer (Fragile false 4)
      (assign_move (Fragile false 4) (two_wrappers (Fragile false 4) 13) 0 1).2 0).1
      = .ok (.ext 0) ∧
    load (assign_move (Fragile false 4) (two_wrappers (Fragile false 4) 13) 0 1).2
      (.ext 0) = none :=
  ⟨rfl, rfl, rfl, rfl, rfl⟩

/-- Assignment with a failing payload constructor, the common part of both assignments:
`build` is the placement construction the strategy attempts after the destructor. -/
theorem assign_failure_core {V E : Type} (T : WrappedType V E) (w : World V) (f : strategy_fn)
    (a b : Nat) (va vb : V) (e : E) (hab : a ≠ b) (ha : Live w a f va) (hb : Live w b f vb)
    (hsep : Separate w a b) :
    (T.copy vb = .error e →
      (assign_copy T w a b).1 = .error (.thrown e) ∧
      Emptied w (assign_copy T w a b).2 a f ∧ Live (assign_copy T w a b).2 b f vb) ∧
    (T.move vb = .error e →
      (assign_move T w a b).1 = .error (.thrown e) ∧
      Emptied w (assign_move T w a b).2 a f ∧ Live (assign_move T w a b).2 b f vb) := by
  obtain ⟨p, hp, hpn, hload, hpv⟩ := get_pointer_of_live (E := E) T w b f vb hb
  obtain ⟨wra, hwra, hsa, hca⟩ := ha
  obtain ⟨wrb, hwrb, hsb, hcb⟩ := hb
  rcases wra with ⟨sta, sfa⟩
  rcases wrb with ⟨stb, sfb⟩
  simp only at hsa hsb hca hcb
  subst hsa hsb
  cases f with
  | internal =>
    simp only at hca hcb
    subst hca hcb hpv
    constructor <;> intro hfail <;>
    simp [assign_copy, assign_move, hab, hp, invoke, World.emit, hwra, call_strategy,
      internal_storage_strategy, destroy_at, slot_at, set_slot, copy_construct_at,
      move_construct_at, load, upd, Ne.symm hab, hwrb, hfail, Live, block_of, value_ptr,
      bound_table, Emptied, payload_constructions, payload_destructions, allocations,
      releases, List.countP_append]
  | external =>
    obtain ⟨ba, hsta, hva⟩ := hca
    obtain ⟨bb, hstb, hvb⟩ := hcb
    subst hsta hstb
    have hne : ba ≠ bb := by
      intro h
      rcases hsep with h1 | h1
      · simp [block_of, hwra] at h1
      · simp [block_of, hwra, hwrb, h] at h1
    have hpb : p = .ext bb := by simp [hpv, value_ptr, block_of, hwrb]
    subst hpb
    constructor <;> intro hfail <;>
    simp [assign_copy, assign_move, hab, hp, invoke, World.emit, hwra, call_strategy,
      external_storage_strategy, destroy_at, slot_at, set_slot, copy_construct_at,
      move_construct_at, load, upd, Ne.symm hne, hne, hva, hvb, hfail, Live, block_of,
      hwrb, value_ptr, bound_table, Emptied, payload_constructions, payload_destructions,
      allocations, releases, List.countP_append]

/-- The read-pointer operation on a wrapper that is bound to a table and, under the
external strategy, has a heap address in its pointer slot returns the address of the
cell's `T`-storage, whether or not a `T` is alive there. -/
theorem get_pointer_of_bound {V E : Type} (T : WrappedType V E) (w : World V) (a : Nat)
    (f : strategy_fn) (hb : bound_table w a = some (some f))
    (hblk : f = .external → ∃ h, block_of w a = some h) :
    (get_pointer T w a : Outcome V E Ptr).1 = .ok (value_ptr w a f) := by
  unfold bound_table at hb
  cases hw : w.objs a with
  | none => simp [hw] at hb
  | some wr =>
    rcases wr with ⟨st, sf⟩
    simp [hw] at hb
    subst hb
    cases f with
    | internal =>
      simp [get_pointer, invoke, hw, call_strategy, internal_storage_strategy, value_ptr]
    | external =>
      obtain ⟨h, hh⟩ := hblk rfl
      have hst : st = .ptr (.ext h) := by
        rcases st with s | q
        · simp [block_of, hw] at hh
        · rcases q with _ | i | k
          · simp [block_of, hw] at hh
          · simp [block_of, hw] at hh
          · simp [block_of, hw] at hh
            rw [hh]
      subst hst
      simp [get_pointer, invoke, hw, call_strategy, external_storage_strategy, value_ptr,
        block_of, World.emit]

/-- C10, amended: for two distinct live wrappers `a` and `b` bound to the external
strategy that share no heap block, if the move constructor of `T` fails with `e` on the
value held in `b` while `a` is move-assigned from `b`, the failure `e` propagates
unchanged to the caller and nothing has been constructed, allocated or released; `a`
keeps its bound Operation Table and its pointer slot; but the value `a` held has already
been destroyed, so the cell of `a` holds no live `T`, and `get_pointer` on `a` still
returns the address of that storage. -/
theorem move_assign_failure_propagates_cell_emptied {V E : Type} (T : WrappedType V E)
    (w : World V) (a b : Nat) (va vb : V) (e : E) (hab : a ≠ b)
    (ha : Live w a .external va) (hb : Live w b .external vb) (hsep : Separate w a b)
    (hfail : T.move vb = .error e) :
    (assign_move T w a b).1 = .error (.thrown e) ∧
    Emptied w (assign_move T w a b).2 a .external ∧
    (get_pointer T (assign_move T w a b).2 a).1 = .ok (value_ptr w a .external) ∧
    load (assign_move T w a b).2 (value_ptr w a .external) = none := by
  obtain ⟨h1, h2, _⟩ := (assign_failure_core T w .external a b va vb e hab ha hb hsep).2 hfail
  have hbt : bound_table w a = some (some .external) := by
    obtain ⟨wr, hwr, hs, _⟩ := ha
    simp [bound_table, hwr, hs]
  have hblk : ∃ h, block_of w a = some h := by
    obtain ⟨wr, hwr, _, h, hst, _⟩ := ha
    exact ⟨h, by simp [block_of, hwr, hst]⟩
  have hem := h2
  obtain ⟨e1, e2, e3, _⟩ := h2
  have hv : value_ptr (assign_move T w a b).2 a .external = value_ptr w a .external := by
    simp [value_ptr, e2]
  refine ⟨h1, hem, ?_, by simp [load, e3]⟩
  rw [← hv]
  exact get_pointer_of_bound T _ a .external (by rw [e1, hbt]) (fun _ => by rw [e2]; exact hblk)

/-- C10 (amended) at a concrete input: wrapper 0 of `Fragile` holds 0 and wrapper 1 holds
13, which the move constructor refuses; the move assignment `w0 = std::move(w1)`
propagates the constructor's own exception and leaves no live `T` in wrapper 0. -/
theorem move_assign_failure_propagates_cell_emptied_witness :
    (assign_move (Fragile false 4) (two_wrappers (Fragile false 4) 13) 0 1).1
      = .error (.thrown "move failed") ∧
    load (assign_move (Fragile false 4) (two_wrappers (Fragile false 4) 13) 0 1).2
      (value_ptr (two_wrappers (Fragile false 4) 13) 0 .external) = none :=
  have hm := move_assign_failure_propagates_cell_emptied (Fragile false 4)
    (two_wrappers (Fragile false 4) 13) 0 1 0 13 "move failed" (by decide)
    ⟨_, rfl, rfl, 0, rfl, rfl⟩ ⟨_, rfl, rfl, 1, rfl, rfl⟩ (Or.inr (by decide)) rfl
  ⟨hm.1, hm.2.2.2⟩

/-! ## C9: construction and destruction counts over sequences of operations -/

/-- C9 on the code: the sequences `W a; W b(a); b.~W(); a.~W();` and
`W a; W b(std::move(a)); b.~W(); a.~W();` use wrappers correctly, with every wrapper
destroyed exactly once, yet under the inline strategy (`Int32`) and under the external
strategy (`Big`) the run stops at the second operation with a call through the null
function pointer: one `T` has been constructed and none destroyed. -/
theorem run_with_copy_or_move_construction_calls_null :
    well_used [] [.default_construct 0, .copy_construct 1 0, .destroy 1, .destroy 0] = true ∧
    well_used [] [.default_construct 0, .move_construct 1 0, .destroy 1, .destroy 0] = true ∧
    (run Int32 lp64 1 [.default_construct 0, .copy_construct 1 0, .destroy 1, .destroy 0]
      (World.empty Nat)).1 = .error .null_call ∧
    (run Big lp64 1 [.default_construct 0, .copy_construct 1 0, .destroy 1, .destroy 0]
      (World.empty Nat)).1 = .error .null_call ∧
    (run Int32 lp64 1 [.default_construct 0, .move_construct 1 0, .destroy 1, .destroy 0]
      (World.empty Nat)).1 = .error .null_call ∧
    (run Big lp64 1 [.default_construct 0, .move_construct 1 0, .destroy 1, .destroy 0]
      (World.empty Nat)).1 = .error .null_call ∧
    payload_constructions (run Big lp64 1
      [.default_construct 0, .copy_construct 1 0, .destroy 1, .destroy 0]
      (World.empty Nat)).2.log = 1 ∧
    payload_destructions (run Big lp64 1
      [.default_construct 0, .copy_construct 1 0, .destroy 1, .destroy 0]
      (World.empty Nat)).2.log = 0 := by
  refine ⟨by decide, by decide, rfl, rfl, rfl, rfl, by decide, by decide⟩

/-! ## The effect of each operation on the memory, by strategy -/

@[simp] theorem upd_upd_same {β : Type} (f : Nat → β) (a : Nat) (x y : β) :
    upd (upd f a x) a y = upd f a y := by
  funext z
  by_cases h : z = a <;> simp [upd, h]

theorem live_internal_iff {V : Type} (w : World V) (a : Nat) (v : V) :
    Live w a .internal v ↔ w.objs a = some ⟨.bytes (.live v), some .internal⟩ := by
  constructor
  · rintro ⟨⟨st, sf⟩, hwr, hs, hc⟩
    simp only at hs hc
    rw [hwr, hs, hc]
  · intro h
    exact ⟨_, h, rfl, rfl⟩

theorem live_external_iff {V : Type} (w : World V) (a : Nat) (v : V) :
    Live w a .external v ↔
      ∃ h, w.objs a = some ⟨.ptr (.ext h), some .external⟩ ∧ w.heap h = some (.live v) := by
  constructor
  · rintro ⟨⟨st, sf⟩, hwr, hs, h, hst, hv⟩
    simp only at hs hst
    exact ⟨h, by rw [hwr, hs, hst], hv⟩
  · rintro ⟨h, hwr, hv⟩
    exact ⟨_, hwr, rfl, h, rfl, hv⟩

theorem construct_default_internal {V E : Type} (T : WrappedType V E) (pf : Platform)
    (F : Nat) (w : World V) (a : Nat) (d : V) (hd : T.ctor = .ok d)
    (hf : select_strategy T pf F = .internal) :
    construct_default T pf F w a = (.ok (),
      { objs := upd w.objs a (some ⟨.bytes (.live d), some .internal⟩),
        heap := w.heap, brk := w.brk,
        log := w.log ++ [.print "internal_storage_strategy",
          .constructed (.inl a) .by_default] }) := by
  simp [construct_default, invoke, hf, set_storage_strategy_, begin_object, call_strategy,
    internal_storage_strategy, construct_at, slot_at, World.emit, hd, set_slot]

theorem construct_default_external {V E : Type} (T : WrappedType V E) (pf : Platform)
    (F : Nat) (w : World V) (a : Nat) (d : V) (hd : T.ctor = .ok d)
    (hf : select_strategy T pf F = .external) :
    construct_default T pf F w a = (.ok (),
      { objs := upd w.objs a (some ⟨.ptr (.ext w.brk), some .external⟩),
        heap := upd w.heap w.brk (some (.live d)), brk := w.brk + 1,
        log := w.log ++ [.print "external_storage_strategy", .allocated w.brk,
          .constructed (.ext w.brk) .by_default] }) := by
  simp [construct_default, invoke, hf, set_storage_strategy_, begin_object, call_strategy,
    external_storage_strategy, new_expr, allocate, construct_at, slot_at, World.emit, hd,
    set_slot, set_external_storage_]

theorem assign_copy_internal {V E : Type} (T : WrappedType V E) (w : World V) (a b : Nat)
    (va vb c : V) (hab : a ≠ b)
    (ha : w.objs a = some ⟨.bytes (.live va), some .internal⟩)
    (hb : w.objs b = some ⟨.bytes (.live vb), some .internal⟩) (hcopy : T.copy vb = .ok c) :
    assign_copy T w a b = (.ok a,
      { objs := upd w.objs a (some ⟨.bytes (.live c), some .internal⟩),
        heap := w.heap, brk := w.brk,
        log := w.log ++ [.print "internal_storage_strategy",
          .print "internal_storage_strategy", .destroyed (.inl a),
          .constructed (.inl a) .by_copy] }) := by
  simp [assign_copy, hab, get_pointer, invoke, World.emit, ha, hb, call_strategy,
    internal_storage_strategy, destroy_at, slot_at, set_slot, copy_construct_at, load,
    Ne.symm hab, hcopy]

theorem assign_copy_external {V E : Type} (T : WrappedType V E) (w : World V) (a b : Nat)
    (ba bb : Nat) (va vb c : V) (hab : a ≠ b) (hne : ba ≠ bb)
    (ha : w.objs a = some ⟨.ptr (.ext ba), some .external⟩)
    (hb : w.objs b = some ⟨.ptr (.ext bb), some .external⟩)
    (hva : w.heap ba = some (.live va)) (hvb : w.heap bb = some (.live vb))
    (hcopy : T.copy vb = .ok c) :
    assign_copy T w a b = (.ok a,
      { objs := w.objs, heap := upd w.heap ba (some (.live c)), brk := w.brk,
        log := w.log ++ [.print "external_storage_strategy",
          .print "external_storage_strategy", .destroyed (.ext ba),
          .constructed (.ext ba) .by_copy] }) := by
  simp [assign_copy, hab, get_pointer, invoke, World.emit, ha, hb, call_strategy,
    external_storage_strategy, destroy_at, slot_at, set_slot, copy_construct_at, load,
    Ne.symm hne, hva, hvb, hcopy]

theorem assign_move_internal {V E : Type} (T : WrappedType V E) (w : World V) (a b : Nat)
    (va vb c r : V) (hab : a ≠ b)
    (ha : w.objs a = some ⟨.bytes (.live va), some .internal⟩)
    (hb : w.objs b = some ⟨.bytes (.live vb), some .internal⟩)
    (hmove : T.move vb = .ok (c, r)) :
    assign_move T w a b = (.ok a,
      { objs := upd (upd (upd w.objs a (some ⟨.bytes .dead, some .internal⟩)) b
          (some ⟨.bytes (.live r), some .internal⟩)) a
          (some ⟨.bytes (.live c), some .internal⟩),
        heap := w.heap, brk := w.brk,
        log := w.log ++ [.print "internal_storage_strategy",
          .print "internal_storage_strategy", .destroyed (.inl a),
          .constructed (.inl a) .by_move] }) := by
  simp [assign_move, hab, get_pointer, invoke, World.emit, ha, hb, call_strategy,
    internal_storage_strategy, destroy_at, slot_at, set_slot, move_construct_at, load,
    Ne.symm hab, hmove]

theorem assign_move_external {V E : Type} (T : WrappedType V E) (w : World V) (a b : Nat)
    (ba bb : Nat) (va vb c r : V) (hab : a ≠ b) (hne : ba ≠ bb)
    (ha : w.objs a = some ⟨.ptr (.ext ba), some .external⟩)
    (hb : w.objs b = some ⟨.ptr (.ext bb), some .external⟩)
    (hva : w.heap ba = some (.live va)) (hvb : w.heap bb = some (.live vb))
    (hmove : T.move vb = .ok (c, r)) :
    assign_move T w a b = (.ok a,
      { objs := w.objs,
        heap := upd (upd (upd w.heap ba (some .dead)) bb (some (.live r))) ba
          (some (.live c)),
        brk := w.brk,
        log := w.log ++ [.print "external_storage_strategy",
          .print "external_storage_strategy", .destroyed (.ext ba),
          .constructed (.ext ba) .by_move] }) := by
  simp [assign_move, hab, get_pointer, invoke, World.emit, ha, hb, call_strategy,
    external_storage_strategy, destroy_at, slot_at, set_slot, move_construct_at, load,
    Ne.symm hne, hva, hvb, hmove]

theorem destruct_internal {V E : Type} (T : WrappedType V E) (w : World V) (a : Nat) (v : V)
    (ha : w.objs a = some ⟨.bytes (.live v), some .internal⟩) :
    destruct T w a = ((.ok () : Except (Fault E) Unit),
      { objs := upd w.objs a none, heap := w.heap, brk := w.brk,
        log := w.log ++ [.print "internal_storage_strategy", .destroyed (.inl a)] }) := by
  simp [destruct, invoke, ha, call_strategy, internal_storage_strategy, destroy_at,
    slot_at, World.emit, set_slot]

theorem destruct_external {V E : Type} (T : WrappedType V E) (w : World V) (a ba : Nat)
    (v : V) (ha : w.objs a = some ⟨.ptr (.ext ba), some .external⟩)
    (hva : w.heap ba = some (.live v)) :
    destruct T w a = ((.ok () : Except (Fault E) Unit),
      { objs := upd w.objs a none, heap := upd w.heap ba none, brk := w.brk,
        log := w.log ++ [.print "external_storage_strategy", .destroyed (.ext ba),
          .released ba] }) := by
  simp [destruct, invoke, ha, call_strategy, external_storage_strategy, destroy_at,
    delete_expr, deallocate, slot_at, World.emit, set_slot, hva]

/-! ## Balance is kept by every operation other than copy and move construction -/

theorem block_of_internal {V : Type} (w : World V) (a : Nat) (v : V)
    (h : Live w a .internal v) : block_of w a = none := by
  rw [live_internal_iff] at h
  simp [block_of, h]

theorem balanced_construct_default {V E : Type} (T : WrappedType V E) (pf : Platform)
    (F : Nat) (w : World V) (live : List Nat) (a : Nat) (d : V) (hd : T.ctor = .ok d)
    (hB : Balanced (select_strategy T pf F) w live) (ha : a ∉ live) :
    (construct_default T pf F w a).1 = .ok () ∧
    Balanced (select_strategy T pf F) (construct_default T pf F w a).2 (a :: live) := by
  obtain ⟨b1, b2, b3, b4, b5, b6, b7, b8⟩ := hB
  have hne : ∀ x, x ∈ live → x ≠ a := fun x hx hxa => ha (hxa ▸ hx)
  cases hf : select_strategy T pf F with
  | internal =>
    rw [hf] at b2 b8
    rw [construct_default_internal T pf F w a d hd hf]
    refine ⟨rfl, List.nodup_cons.2 ⟨ha, b1⟩, ?_, ?_, ?_, b5, ?_, ?_, ?_⟩
    · intro x hx
      rcases List.mem_cons.1 hx with rfl | hx
      · exact ⟨d, by simp [live_internal_iff]⟩
      · obtain ⟨v, hv⟩ := b2 x hx
        refine ⟨v, ?_⟩
        rw [live_internal_iff] at *
        simpa [hne x hx] using hv
    · intro x hx
      have hxa : x ≠ a := fun h => hx (h ▸ List.mem_cons_self _ _)
      have hxl : x ∉ live := fun h => hx (List.mem_cons_of_mem _ h)
      simpa [hxa] using b3 x hxl
    · intro x y hx _ _
      left
      rcases List.mem_cons.1 hx with rfl | hx
      · simp [block_of]
      · obtain ⟨v, hv⟩ := b2 x hx
        rw [live_internal_iff] at hv
        simp [block_of, hne x hx, hv]
    · intro h hh
      obtain ⟨x, hx, hbx⟩ := b6 h hh
      obtain ⟨v, hv⟩ := b2 x hx
      rw [block_of_internal w x v hv] at hbx
      cases hbx
    · simp [payload_constructions, payload_destructions, List.countP_append] at b7 ⊢
      omega
    · simp [allocations, releases, List.countP_append] at b8 ⊢
      omega
  | external =>
    rw [hf] at b2 b8
    rw [construct_default_external T pf F w a d hd hf]
    have hblk : ∀ x, x ∈ live → ∃ h, block_of w x = some h ∧ h < w.brk := by
      intro x hx
      obtain ⟨v, hv⟩ := b2 x hx
      rw [live_external_iff] at hv
      obtain ⟨h, hwr, hh⟩ := hv
      refine ⟨h, by simp [block_of, hwr], ?_⟩
      by_contra hlt
      rw [b5 h (by omega)] at hh
      cases hh
    refine ⟨rfl, List.nodup_cons.2 ⟨ha, b1⟩, ?_, ?_, ?_, ?_, ?_, ?_, ?_⟩
    · intro x hx
      rcases List.mem_cons.1 hx with rfl | hx
      · exact ⟨d, by simp [live_external_iff]⟩
      · obtain ⟨v, hv⟩ := b2 x hx
        obtain ⟨h, hbx, hlt⟩ := hblk x hx
        refine ⟨v, ?_⟩
        rw [live_external_iff] at *
        obtain ⟨k, hwr, hk⟩ := hv
        have hkh : k = h := by simpa [block_of, hwr] using hbx
        subst hkh
        exact ⟨k, by simpa [hne x hx] using hwr, by simpa [Nat.ne_of_lt hlt] using hk⟩
    · intro x hx
      have hxa : x ≠ a := fun h => hx (h ▸ List.mem_cons_self _ _)
      have hxl : x ∉ live := fun h => hx (List.mem_cons_of_mem _ h)
      simpa [hxa] using b3 x hxl
    · intro x y hx hy hxy
      have hbo : ∀ z, z ∈ live → block_of
          ({ objs := upd w.objs a (some ⟨.ptr (.ext w.brk), some .external⟩),
             heap := upd w.heap w.brk (some (.live d)), brk := w.brk + 1,
             log := w.log ++ [.print "external_storage_strategy", .allocated w.brk,
               .constructed (.ext w.brk) .by_default] } : World V) z = block_of w z := by
        intro z hz
        simp [block_of, hne z hz]
      rcases List.mem_cons.1 hx with hxa | hxl <;> rcases List.mem_cons.1 hy with hya | hyl
      · exact absurd (hxa.trans hya.symm) hxy
      · right
        obtain ⟨h, hby, hlt⟩ := hblk y hyl
        rw [hbo y hyl, hby, hxa]
        simp [block_of]
        omega
      · right
        obtain ⟨h, hbx, hlt⟩ := hblk x hxl
        rw [hbo x hxl, hbx, hya]
        simp [block_of]
        omega
      · unfold Separate
        rw [hbo x hxl, hbo y hyl]
        exact b4 x y hxl hyl hxy
    · intro h hh
      have : h ≠ w.brk := by simp at hh; omega
      simpa [this] using b5 h (by simp at hh; omega)
    · intro h hh
      by_cases hk : h = w.brk
      · exact ⟨a, List.mem_cons_self _ _, by simp [block_of, hk]⟩
      · obtain ⟨x, hx, hbx⟩ := b6 h (by simpa [hk] using hh)
        exact ⟨x, List.mem_cons_of_mem _ hx, by simpa [block_of, hne x hx] using hbx⟩
    · simp [payload_constructions, payload_destructions, List.countP_append] at b7 ⊢
      omega
    · simp [allocations, releases, List.countP_append] at b8 ⊢
      omega

/-- Balance carries over to a memory with the same wrappers, pointer slots and allocated
blocks, one live value per wrapper, and one more construction and one more destructor
run in the trace. -/
theorem balanced_of_same_shape {V : Type} (f : strategy_fn) (w w2 : World V)
    (live : List Nat) (hB : Balanced f w live)
    (hlive : ∀ x, x ∈ live → ∃ v, Live w2 x f v)
    (hobj : ∀ x, w.objs x = none → w2.objs x = none)
    (hblock : ∀ x, block_of w2 x = block_of w x)
    (hbrk : w2.brk = w.brk)
    (hheap : ∀ h, w2.heap h = none ↔ w.heap h = none)
    (hc : payload_constructions w2.log = payload_constructions w.log + 1)
    (hd : payload_destructions w2.log = payload_destructions w.log + 1)
    (hal : allocations w2.log = allocations w.log)
    (hre : releases w2.log = releases w.log) : Balanced f w2 live := by
  obtain ⟨b1, b2, b3, b4, b5, b6, b7, b8⟩ := hB
  refine ⟨b1, hlive, fun x hx => hobj x (b3 x hx), ?_, ?_, ?_, by omega, by omega⟩
  · intro x y hx hy hxy
    unfold Separate
    rw [hblock x, hblock y]
    exact b4 x y hx hy hxy
  · intro h hh
    rw [hbrk] at hh
    exact (hheap h).2 (b5 h hh)
  · intro h hh
    obtain ⟨x, hx, hbx⟩ := b6 h (fun hn => hh ((hheap h).2 hn))
    exact ⟨x, hx, by rw [hblock x, hbx]⟩

/-- Two distinct wrappers alive in a balanced memory under the external strategy. -/
theorem balanced_external_pair {V : Type} (w : World V) (live : List Nat) (a b : Nat)
    (hB : Balanced .external w live) (ha : a ∈ live) (hb : b ∈ live) (hab : a ≠ b) :
    ∃ ba bb va vb, ba ≠ bb ∧
      w.objs a = some ⟨.ptr (.ext ba), some .external⟩ ∧
      w.objs b = some ⟨.ptr (.ext bb), some .external⟩ ∧
      w.heap ba = some (.live va) ∧ w.heap bb = some (.live vb) := by
  obtain ⟨_, b2, _, b4, _⟩ := hB
  obtain ⟨va, hva⟩ := b2 a ha
  obtain ⟨vb, hvb⟩ := b2 b hb
  rw [live_external_iff] at hva hvb
  obtain ⟨ba, hwa, hha⟩ := hva
  obtain ⟨bb, hwb, hhb⟩ := hvb
  refine ⟨ba, bb, va, vb, ?_, hwa, hwb, hha, hhb⟩
  intro h
  rcases b4 a b ha hb hab with h1 | h1
  · simp [block_of, hwa] at h1
  · simp [block_of, hwa, hwb, h] at h1

theorem balanced_assign_copy_of_ok {V E : Type} (T : WrappedType V E) (f : strategy_fn)
    (w : World V) (live : List Nat) (a b : Nat)
    (hok : ∀ vb, Live w b f vb → ∃ c, T.copy vb = .ok c)
    (hB : Balanced f w live) (ha : a ∈ live) (hb : b ∈ live) :
    (assign_copy T w a b).1 = .ok a ∧ Balanced f (assign_copy T w a b).2 live := by
  by_cases hab : a = b
  · subst hab
    have hself : assign_copy T w a a = (.ok a, w) := by simp [assign_copy]
    rw [hself]
    exact ⟨rfl, hB⟩
  cases f with
  | internal =>
    obtain ⟨va, hva⟩ := hB.2.1 a ha
    obtain ⟨vb, hvb⟩ := hB.2.1 b hb
    obtain ⟨c, hc⟩ := hok vb hvb
    rw [live_internal_iff] at hva hvb
    rw [assign_copy_internal T w a b va vb c hab hva hvb hc]
    refine ⟨rfl, balanced_of_same_shape _ w _ live hB ?_ ?_ ?_ rfl (fun h => Iff.rfl) ?_ ?_
      ?_ ?_⟩
    · intro x hx
      by_cases hxa : x = a
      · exact ⟨c, by simp [live_internal_iff, hxa]⟩
      · obtain ⟨v, hv⟩ := hB.2.1 x hx
        rw [live_internal_iff] at hv
        exact ⟨v, by simp [live_internal_iff, hxa, hv]⟩
    · intro x hx
      have hxa : x ≠ a := fun h => by rw [h, hva] at hx; cases hx
      simp [hxa, hx]
    · intro x
      by_cases hxa : x = a
      · simp [block_of, hxa, hva]
      · simp [block_of, hxa]
    all_goals
      simp [payload_constructions, payload_destructions, allocations, releases,
        List.countP_append]
  | external =>
    obtain ⟨ba, bb, va, vb, hne, hwa, hwb, hha, hhb⟩ :=
      balanced_external_pair w live a b hB ha hb hab
    obtain ⟨c, hc⟩ := hok vb ((live_external_iff w b vb).2 ⟨bb, hwb, hhb⟩)
    rw [assign_copy_external T w a b ba bb va vb c hab hne hwa hwb hha hhb hc]
    refine ⟨rfl, balanced_of_same_shape _ w _ live hB ?_ (fun x hx => hx) (fun x => rfl) rfl
      ?_ ?_ ?_ ?_ ?_⟩
    · intro x hx
      by_cases hxa : x = a
      · exact ⟨c, (live_external_iff _ _ _).2 ⟨ba, by simp [hxa, hwa], by simp⟩⟩
      · obtain ⟨ba2, bx, _, vx, hnx, hwa2, hwx, _, hhx⟩ :=
          balanced_external_pair w live a x hB ha hx (Ne.symm hxa)
        have hba : ba2 = ba := by
          rw [hwa] at hwa2
          simpa using hwa2.symm
        subst hba
        exact ⟨vx, (live_external_iff _ _ _).2 ⟨bx, hwx, by simp [Ne.symm hnx, hhx]⟩⟩
    · intro h
      by_cases hh : h = ba
      · simp [hh, hha]
      · simp [hh]
    all_goals
      simp [payload_constructions, payload_destructions, allocations, releases,
        List.countP_append]

theorem balanced_assign_copy {V E : Type} (T : WrappedType V E) (f : strategy_fn)
    (w : World V) (live : List Nat) (a b : Nat) (htot : Total T)
    (hB : Balanced f w live) (ha : a ∈ live) (hb : b ∈ live) :
    (assign_copy T w a b).1 = .ok a ∧ Balanced f (assign_copy T w a b).2 live :=
  balanced_assign_copy_of_ok T f w live a b (fun vb _ => htot.2.1 vb) hB ha hb

theorem balanced_assign_move_of_ok {V E : Type} (T : WrappedType V E) (f : strategy_fn)
    (w : World V) (live : List Nat) (a b : Nat)
    (hok : ∀ vb, Live w b f vb → ∃ c r, T.move vb = .ok (c, r))
    (hB : Balanced f w live) (ha : a ∈ live) (hb : b ∈ live) :
    (assign_move T w a b).1 = .ok a ∧ Balanced f (assign_move T w a b).2 live := by
  by_cases hab : a = b
  · subst hab
    have hself : assign_move T w a a = (.ok a, w) := by simp [assign_move]
    rw [hself]
    exact ⟨rfl, hB⟩
  cases f with
  | internal =>
    obtain ⟨va, hva⟩ := hB.2.1 a ha
    obtain ⟨vb, hvb⟩ := hB.2.1 b hb
    obtain ⟨c, r, hc⟩ := hok vb hvb
    rw [live_internal_iff] at hva hvb
    rw [assign_move_internal T w a b va vb c r hab hva hvb hc]
    refine ⟨rfl, balanced_of_same_shape _ w _ live hB ?_ ?_ ?_ rfl (fun h => Iff.rfl) ?_ ?_
      ?_ ?_⟩
    · intro x hx
      by_cases hxa : x = a
      · exact ⟨c, by simp [live_internal_iff, hxa]⟩
      · by_cases hxb : x = b
        · exact ⟨r, by simp [live_internal_iff, hxb, Ne.symm hab]⟩
        · obtain ⟨v, hv⟩ := hB.2.1 x hx
          rw [live_internal_iff] at hv
          exact ⟨v, by simp [live_internal_iff, hxa, hxb, hv]⟩
    · intro x hx
      have hxa : x ≠ a := fun h => by rw [h, hva] at hx; cases hx
      have hxb : x ≠ b := fun h => by rw [h, hvb] at hx; cases hx
      simp [hxa, hxb, hx]
    · intro x
      by_cases hxa : x = a
      · simp [block_of, hxa, hva]
      · by_cases hxb : x = b
        · simp [block_of, hxb, hvb, Ne.symm hab]
        · simp [block_of, hxa, hxb]
    all_goals
      simp [payload_constructions, payload_destructions, allocations, releases,
        List.countP_append]
  | external =>
    obtain ⟨ba, bb, va, vb, hne, hwa, hwb, hha, hhb⟩ :=
      balanced_external_pair w live a b hB ha hb hab
    obtain ⟨c, r, hc⟩ := hok vb ((live_external_iff w b vb).2 ⟨bb, hwb, hhb⟩)
    rw [assign_move_external T w a b ba bb va vb c r hab hne hwa hwb hha hhb hc]
    refine ⟨rfl, balanced_of_same_shape _ w _ live hB ?_ (fun x hx => hx) (fun x => rfl) rfl
      ?_ ?_ ?_ ?_ ?_⟩
    · intro x hx
      by_cases hxa : x = a
      · exact ⟨c, (live_external_iff _ _ _).2 ⟨ba, by simp [hxa, hwa], by simp⟩⟩
      · by_cases hxb : x = b
        · exact ⟨r, (live_external_iff _ _ _).2
            ⟨bb, by simp [hxb, hwb], by simp [Ne.symm hne]⟩⟩
        · obtain ⟨ba2, bx, _, vx, hnx, hwa2, hwx, _, hhx⟩ :=
            balanced_external_pair w live a x hB ha hx (Ne.symm hxa)
          obtain ⟨bb2, bx2, _, _, hnx2, hwb2, hwx2, _, _⟩ :=
            balanced_external_pair w live b x hB hb hx (Ne.symm hxb)
          have hba : ba2 = ba := by
            rw [hwa] at hwa2
            simpa using hwa2.symm
          have hbb : bb2 = bb := by
            rw [hwb] at hwb2
            simpa using hwb2.symm
          have hbx : bx2 = bx := by
            rw [hwx] at hwx2
            simpa using hwx2.symm
          subst hba hbb hbx
          exact ⟨vx, (live_external_iff _ _ _).2
            ⟨bx2, hwx, by simp [Ne.symm hnx, Ne.symm hnx2, hhx]⟩⟩
    · intro h
      by_cases hh : h = ba
      · simp [hh, hha]
      · by_cases hk : h = bb
        · simp [hk, hhb, Ne.symm hne]
        · simp [hh, hk]
    all_goals
      simp [payload_constructions, payload_destructions, allocations, releases,
        List.countP_append]

theorem balanced_assign_move {V E : Type} (T : WrappedType V E) (f : strategy_fn)
    (w : World V) (live : List Nat) (a b : Nat) (htot : Total T)
    (hB : Balanced f w live) (ha : a ∈ live) (hb : b ∈ live) :
    (assign_move T w a b).1 = .ok a ∧ Balanced f (assign_move T w a b).2 live :=
  balanced_assign_move_of_ok T f w live a b (fun vb _ => htot.2.2 vb) hB ha hb

theorem balanced_destruct {V E : Type} (T : WrappedType V E) (f : strategy_fn)
    (w : World V) (live : List Nat) (a : Nat) (hB : Balanced f w live) (ha : a ∈ live) :
    (destruct T w a : Outcome V E Unit).1 = .ok () ∧
    Balanced f (destruct T w a : Outcome V E Unit).2 (live.erase a) := by
  have hmem : ∀ x, x ∈ live.erase a ↔ x ≠ a ∧ x ∈ live :=
    fun x => List.Nodup.mem_erase_iff hB.1
  have hlen : live.length = (live.erase a).length + 1 := by
    rw [List.length_erase_of_mem ha]
    have := List.length_pos_of_mem ha
    omega
  have hnot : ∀ x, x ∉ live.erase a → x = a ∨ x ∉ live := by
    intro x hx
    by_cases hxa : x = a
    · exact Or.inl hxa
    · exact Or.inr (fun h => hx ((hmem x).2 ⟨hxa, h⟩))
  obtain ⟨b1, b2, b3, b4, b5, b6, b7, b8⟩ := hB
  cases f with
  | internal =>
    obtain ⟨va, hva⟩ := b2 a ha
    have hva2 := hva
    rw [live_internal_iff] at hva2
    rw [destruct_internal T w a va hva2]
    refine ⟨rfl, b1.erase a, ?_, ?_, ?_, b5, ?_, ?_, ?_⟩
    · intro x hx
      obtain ⟨hxa, hxl⟩ := (hmem x).1 hx
      obtain ⟨v, hv⟩ := b2 x hxl
      rw [live_internal_iff] at hv
      exact ⟨v, by simp [live_internal_iff, hxa, hv]⟩
    · intro x hx
      rcases hnot x hx with h | h
      · simp [h]
      · have hxa : x ≠ a := fun hh => h (hh ▸ ha)
        simpa [hxa] using b3 x h
    · intro x y hx _ _
      left
      obtain ⟨hxa, hxl⟩ := (hmem x).1 hx
      obtain ⟨v, hv⟩ := b2 x hxl
      rw [live_internal_iff] at hv
      simp [block_of, hxa, hv]
    · intro h hh
      obtain ⟨x, hx, hbx⟩ := b6 h hh
      obtain ⟨v, hv⟩ := b2 x hx
      rw [block_of_internal w x v hv] at hbx
      cases hbx
    · simp [payload_constructions, payload_destructions, List.countP_append] at b7 ⊢
      omega
    · simp [allocations, releases, List.countP_append] at b8 ⊢
      omega
  | external =>
    obtain ⟨va, hva⟩ := b2 a ha
    rw [live_external_iff] at hva
    obtain ⟨ba, hwa, hha⟩ := hva
    rw [destruct_external T w a ba va hwa hha]
    have hother : ∀ x, x ∈ live → x ≠ a → ∃ bx vx, bx ≠ ba ∧
        w.objs x = some ⟨.ptr (.ext bx), some .external⟩ ∧ w.heap bx = some (.live vx) := by
      intro x hx hxa
      obtain ⟨ba2, bx, _, vx, hnx, hwa2, hwx, _, hhx⟩ := balanced_external_pair w live a x
        ⟨b1, b2, b3, b4, b5, b6, b7, b8⟩ ha hx (Ne.symm hxa)
      have hba : ba2 = ba := by
        rw [hwa] at hwa2
        simpa using hwa2.symm
      subst hba
      exact ⟨bx, vx, Ne.symm hnx, hwx, hhx⟩
    refine ⟨rfl, b1.erase a, ?_, ?_, ?_, ?_, ?_, ?_, ?_⟩
    · intro x hx
      obtain ⟨hxa, hxl⟩ := (hmem x).1 hx
      obtain ⟨bx, vx, hnx, hwx, hhx⟩ := hother x hxl hxa
      exact ⟨vx, (live_external_iff _ _ _).2 ⟨bx, by simp [hxa, hwx], by simp [hnx, hhx]⟩⟩
    · intro x hx
      rcases hnot x hx with h | h
      · simp [h]
      · have hxa : x ≠ a := fun hh => h (hh ▸ ha)
        simpa [hxa] using b3 x h
    · intro x y hx hy hxy
      obtain ⟨hxa, hxl⟩ := (hmem x).1 hx
      obtain ⟨hya, hyl⟩ := (hmem y).1 hy
      have := b4 x y hxl hyl hxy
      simpa [Separate, block_of, hxa, hya] using this
    · intro h hh
      by_cases hk : h = ba
      · simp [hk]
      · simpa [hk] using b5 h hh
    · intro h hh
      have hk : h ≠ ba := by
        intro hk
        simp [hk] at hh
      obtain ⟨x, hx, hbx⟩ := b6 h (by simpa [hk] using hh)
      have hxa : x ≠ a := by
        intro hxa
        rw [hxa] at hbx
        simp [block_of, hwa] at hbx
        exact hk hbx.symm
      exact ⟨x, (hmem x).2 ⟨hxa, hx⟩, by simpa [block_of, hxa] using hbx⟩
    · simp [payload_constructions, payload_destructions, List.countP_append] at b7 ⊢
      omega
    · simp [allocations, releases, List.countP_append] at b8 ⊢
      omega

theorem bind_of_fst_ok {V E α β : Type} (r : Outcome V E α) (a : α)
    (k : α → World V → Outcome V E β) (h : r.1 = .ok a) : r.bind k = k a r.2 := by
  rcases r with ⟨x, w⟩
  simp only at h
  subst h
  rfl

theorem balanced_empty {V : Type} (f : strategy_fn) : Balanced f (World.empty V) [] := by
  refine ⟨List.nodup_nil, ?_, ?_, ?_, ?_, ?_, ?_, ?_⟩
  · intro a ha; cases ha
  · intro a _; rfl
  · intro a b ha; cases ha
  · intro h _; rfl
  · intro h hh; exact absurd rfl hh
  · rfl
  · cases f <;> rfl

/-- Over any correctly used sequence of default constructions, copy and move
assignments and destructions, with constructors of `T` that complete, the run completes
and keeps the memory balanced. -/
theorem run_balanced {V E : Type} (T : WrappedType V E) (pf : Platform) (F : Nat)
    (htot : Total T) (os : List wrapper_op) :
    ∀ (live : List Nat) (w : World V), Balanced (select_strategy T pf F) w live →
      well_used live os = true → no_copy_move_construction os = true →
      (run T pf F os w).1 = .ok () ∧
      Balanced (select_strategy T pf F) (run T pf F os w).2 [] := by
  induction os with
  | nil =>
    intro live w hB hwu _
    have hl : live = [] := by simpa [well_used] using hwu
    subst hl
    exact ⟨rfl, hB⟩
  | cons o os ih =>
    intro live w hB hwu hnc
    cases o with
    | default_construct a =>
      simp [well_used] at hwu
      obtain ⟨d, hd⟩ := htot.1
      obtain ⟨h1, h2⟩ := balanced_construct_default T pf F w live a d hd hB hwu.1
      simp only [run, step]
      rw [bind_of_fst_ok _ () _ h1]
      exact ih _ _ h2 hwu.2 (by simpa [no_copy_move_construction] using hnc)
    | copy_construct a b => simp [no_copy_move_construction] at hnc
    | move_construct a b => simp [no_copy_move_construction] at hnc
    | copy_assign a b =>
      simp [well_used] at hwu
      obtain ⟨h1, h2⟩ := balanced_assign_copy T _ w live a b htot hB hwu.1.1 hwu.1.2
      simp only [run, step]
      rw [bind_of_fst_ok _ a _ h1, bind_ok]
      exact ih _ _ h2 hwu.2 (by simpa [no_copy_move_construction] using hnc)
    | move_assign a b =>
      simp [well_used] at hwu
      obtain ⟨h1, h2⟩ := balanced_assign_move T _ w live a b htot hB hwu.1.1 hwu.1.2
      simp only [run, step]
      rw [bind_of_fst_ok _ a _ h1, bind_ok]
      exact ih _ _ h2 hwu.2 (by simpa [no_copy_move_construction] using hnc)
    | destroy a =>
      simp [well_used] at hwu
      obtain ⟨h1, h2⟩ := balanced_destruct (E := E) T _ w live a hB hwu.1
      simp only [run, step]
      rw [bind_of_fst_ok _ () _ h1]
      exact ih _ _ h2 hwu.2 (by simpa [no_copy_move_construction] using hnc)

/-- No leak and no double destruction without copy or move construction: from the empty
memory, every correctly used sequence of default constructions, copy and move
assignments and destructions that destroys every wrapper it constructed, for a `T`
whose constructors complete, runs to its end (so no destructor ever ran on storage
without a live `T`), with as many constructions of `T` as destructor runs, as many
allocations as releases, and no wrapper and no heap block left. -/
theorem run_without_copy_move_construction_balances {V E : Type} (T : WrappedType V E)
    (pf : Platform) (F : Nat) (htot : Total T) (os : List wrapper_op)
    (hwu : well_used [] os = true) (hnc : no_copy_move_construction os = true) :
    (run T pf F os (World.empty V)).1 = .ok () ∧
    payload_constructions (run T pf F os (World.empty V)).2.log =
      payload_destructions (run T pf F os (World.empty V)).2.log ∧
    allocations (run T pf F os (World.empty V)).2.log =
      releases (run T pf F os (World.empty V)).2.log ∧
    (∀ a, (run T pf F os (World.empty V)).2.objs a = none) ∧
    (∀ h, (run T pf F os (World.empty V)).2.heap h = none) := by
  obtain ⟨h1, _, _, b3, _, _, b6, b7, b8⟩ :=
    run_balanced T pf F htot os [] (World.empty V) (balanced_empty _) hwu hnc
  refine ⟨h1, by simpa using b7, ?_, fun a => b3 a (List.not_mem_nil a), ?_⟩
  · cases hf : select_strategy T pf F <;> simp [hf] at b8 <;> exact b8
  · intro h
    by_contra hh
    obtain ⟨a, ha, _⟩ := b6 h hh
    cases ha

/-- The balance theorem at a concrete sequence: two wrappers of `Big` (external
strategy), two assignments, two destructions. -/
theorem run_without_copy_move_construction_balances_witness :
    (run Big lp64 1 [.default_construct 0, .default_construct 1, .copy_assign 0 1,
      .move_assign 1 0, .destroy 0, .destroy 1] (World.empty Nat)).1 = .ok () ∧
    payload_constructions (run Big lp64 1 [.default_construct 0, .default_construct 1,
      .copy_assign 0 1, .move_assign 1 0, .destroy 0, .destroy 1] (World.empty Nat)).2.log =
      payload_destructions (run Big lp64 1 [.default_construct 0, .default_construct 1,
      .copy_assign 0 1, .move_assign 1 0, .destroy 0, .destroy 1] (World.empty Nat)).2.log :=
  have h := run_without_copy_move_construction_balances Big lp64 1
    ⟨⟨0, rfl⟩, fun v => ⟨v, rfl⟩, fun v => ⟨v, 0, rfl⟩⟩
    [.default_construct 0, .default_construct 1, .copy_assign 0 1, .move_assign 1 0,
      .destroy 0, .destroy 1] (by decide) (by decide)
  ⟨h.1, h.2.1⟩

/-! ## Every strategy call leaves a line in the trace -/

theorem set_slot_log {V : Type} (w : World V) (p : Ptr) (s : Slot V) :
    (set_slot w p s).log = w.log := by
  cases p with
  | null => rfl
  | inl i =>
    simp only [set_slot]
    split <;> rfl
  | ext a => rfl

theorem log_bind {V E α β : Type} (base : List Event) (r : Outcome V E α)
    (k : α → World V → Outcome V E β) (h1 : ∃ l, r.2.log = base ++ l)
    (h2 : ∀ a w1, ∃ l, (k a w1).2.log = w1.log ++ l) :
    ∃ l, (r.bind k).2.log = base ++ l := by
  rcases r with ⟨x, w1⟩
  obtain ⟨l1, hl1⟩ := h1
  cases x with
  | error e => exact ⟨l1, hl1⟩
  | ok a =>
    obtain ⟨l2, hl2⟩ := h2 a w1
    refine ⟨l1 ++ l2, ?_⟩
    simp only [bind_ok, hl2]
    simp only at hl1
    rw [hl1, List.append_assoc]

theorem log_destroy_at {V E : Type} (w : World V) (p : Ptr) :
    ∃ l, (destroy_at w p : Outcome V E Unit).2.log = w.log ++ l := by
  unfold destroy_at
  split
  · exact ⟨[.destroyed p], by simp [World.emit, set_slot_log]⟩
  · exact ⟨[], by simp⟩

theorem log_construct_at {V E : Type} (T : WrappedType V E) (w : World V) (p : Ptr) :
    ∃ l, (construct_at T w p).2.log = w.log ++ l := by
  unfold construct_at
  split
  · exact ⟨[], by simp⟩
  · split
    · exact ⟨[.constructed p .by_default], by simp [World.emit, set_slot_log]⟩
    · exact ⟨[], by simp⟩

theorem log_copy_construct_at {V E : Type} (T : WrappedType V E) (w : World V) (p q : Ptr) :
    ∃ l, (copy_construct_at T w p q).2.log = w.log ++ l := by
  unfold copy_construct_at
  split
  · exact ⟨[], by simp⟩
  · split
    · exact ⟨[], by simp⟩
    · split
      · exact ⟨[.constructed p .by_copy], by simp [World.emit, set_slot_log]⟩
      · exact ⟨[], by simp⟩

theorem log_move_construct_at {V E : Type} (T : WrappedType V E) (w : World V) (p q : Ptr) :
    ∃ l, (move_construct_at T w p q).2.log = w.log ++ l := by
  unfold move_construct_at
  split
  · exact ⟨[], by simp⟩
  · split
    · exact ⟨[], by simp⟩
    · split
      · exact ⟨[.constructed p .by_move], by simp [World.emit, set_slot_log]⟩
      · exact ⟨[], by simp⟩

theorem log_new_expr {V E : Type} (w : World V) (init : World V → Ptr → Outcome V E Unit)
    (h : ∀ m p, ∃ l, (init m p).2.log = m.log ++ l) :
    ∃ l, (new_expr w init).2.log = w.log ++ l := by
  unfold new_expr
  obtain ⟨l, hl⟩ := h (allocate w) (.ext w.brk)
  rcases hi : init (allocate w) (.ext w.brk) with ⟨x, w2⟩
  rw [hi] at hl
  simp only at hl
  cases x with
  | ok u => exact ⟨.allocated w.brk :: l, by simp [hl, allocate, World.emit]⟩
  | error e =>
    exact ⟨.allocated w.brk :: (l ++ [.released w.brk]),
      by simp [hl, allocate, deallocate, World.emit]⟩

theorem log_delete_expr {V E : Type} (w : World V) (p : Ptr) :
    ∃ l, (delete_expr w p : Outcome V E Unit).2.log = w.log ++ l := by
  cases p with
  | null => exact ⟨[], by simp [delete_expr]⟩
  | inl i => exact ⟨[], by simp [delete_expr]⟩
  | ext a =>
    simp only [delete_expr]
    exact log_bind _ _ _ (log_destroy_at w _)
      (fun _ w1 => ⟨[.released a], by simp [deallocate, World.emit]⟩)

theorem set_external_storage_log {V : Type} (w : World V) (a : Nat) (p : Ptr) :
    (set_external_storage_ w a p).log = w.log := by
  simp only [set_external_storage_]
  split <;> rfl

/-- A call of either strategy function first writes its own name to the output stream,
and only appends to the trace after that. -/
theorem call_strategy_log {V E : Type} (T : WrappedType V E) (f : strategy_fn)
    (w : World V) (a : Nat) (op : storage_operation) (p : Ptr) :
    ∃ l, (call_strategy T (some f) w a op p).2.log =
      w.log ++ .print (strategy_name f) :: l := by
  have hnil : ∀ (x : Except (Fault E) Ptr) (m : World V), ∃ l, (x, m).2.log = m.log ++ l :=
    fun x m => ⟨[], by simp⟩
  have hret : ∀ (_ : Unit) (m : World V), ∃ l,
      (((.ok .null : Except (Fault E) Ptr), m) : Outcome V E Ptr).2.log = m.log ++ l :=
    fun _ m => ⟨[], by simp⟩
  have key : ∀ r : Outcome V E Ptr,
      (∃ l, r.2.log = (w.emit (.print (strategy_name f))).log ++ l) →
      ∃ l, r.2.log = w.log ++ .print (strategy_name f) :: l := by
    rintro r ⟨l, hl⟩
    exact ⟨l, by simp [hl, World.emit]⟩
  cases f with
  | internal =>
    apply key
    simp only [call_strategy, internal_storage_strategy, strategy_name]
    cases op with
    | GET_VALUE_PTR => exact hnil _ _
    | CONSTRUCT => exact log_bind _ _ _ (log_construct_at T _ _) hret
    | DESTROY => exact log_bind _ _ _ (log_destroy_at _ _) hret
    | CONSTRUCT_COPY_VALUE =>
      simp only
      split
      · exact hnil _ _
      · exact log_bind _ _ _ (log_copy_construct_at T _ _ _) hret
    | CONSTRUCT_MOVE_VALUE =>
      simp only
      split
      · exact hnil _ _
      · exact log_bind _ _ _ (log_move_construct_at T _ _ _) hret
    | ASSIGN_COPY_VALUE =>
      simp only
      split
      · exact hnil _ _
      · exact log_bind _ _ _ (log_destroy_at _ _)
          (fun _ w1 => log_bind _ _ _ (log_copy_construct_at T _ _ _) hret)
    | ASSIGN_MOVE_VALUE =>
      simp only
      split
      · exact hnil _ _
      · exact log_bind _ _ _ (log_destroy_at _ _)
          (fun _ w1 => log_bind _ _ _ (log_move_construct_at T _ _ _) hret)
  | external =>
    apply key
    have hset : ∀ (q : Ptr) (m : World V), ∃ l,
        (((.ok .null : Except (Fault E) Ptr), set_external_storage_ m a q) :
          Outcome V E Ptr).2.log = m.log ++ l :=
      fun q m => ⟨[], by simp [set_external_storage_log]⟩
    simp only [call_strategy, external_storage_strategy, strategy_name]
    split
    · exact hnil _ _
    · cases op with
      | GET_VALUE_PTR =>
        simp only
        split
        · exact hnil _ _
        · split
          · exact hnil _ _
          · exact hnil _ _
      | CONSTRUCT =>
        exact log_bind _ _ _ (log_new_expr _ _ (fun m q => log_construct_at T m q)) hset
      | DESTROY =>
        simp only
        split
        · exact hnil _ _
        · split
          · exact hnil _ _
          · exact log_bind _ _ _ (log_delete_expr _ _) hret
      | CONSTRUCT_COPY_VALUE =>
        simp only
        split
        · exact hnil _ _
        · exact log_bind _ _ _
            (log_new_expr _ _ (fun m q => log_copy_construct_at T m q p)) hset
      | CONSTRUCT_MOVE_VALUE =>
        simp only
        split
        · exact hnil _ _
        · exact log_bind _ _ _
            (log_new_expr _ _ (fun m q => log_move_construct_at T m q p)) hset
      | ASSIGN_COPY_VALUE =>
        simp only
        split
        · exact hnil _ _
        · split
          · exact hnil _ _
          · split
            · exact hnil _ _
            · exact log_bind _ _ _ (log_destroy_at _ _)
                (fun _ w1 => log_bind _ _ _ (log_copy_construct_at T _ _ _) hret)
      | ASSIGN_MOVE_VALUE =>
        simp only
        split
        · exact hnil _ _
        · split
          · exact hnil _ _
          · split
            · exact hnil _ _
            · exact log_bind _ _ _ (log_destroy_at _ _)
                (fun _ w1 => log_bind _ _ _ (log_move_construct_at T _ _ _) hret)

/-! ## Self-assignment -/

/-- Move-assigning the wrapper at `a` to itself, `w = std::move(w)`, returns `a` and
leaves the whole memory as it was: every wrapper (value, cell and bound table), the heap,
and the event trace, to which no construction, destruction, allocation or release has
been added. No Operation Table call was made, because any call through a bound table
would have appended the strategy's line to the trace. -/
theorem self_move_assignment_noop {V E : Type} (T : WrappedType V E) (w : World V) (a : Nat) :
    assign_move T w a a = (.ok a, w) ∧
    (∀ f b op p, (call_strategy T (some f) w b op p).2.log ≠ w.log) := by
  refine ⟨by simp [assign_move], ?_⟩
  intro f b op p h
  obtain ⟨l, hl⟩ := call_strategy_log T f w b op p
  rw [h] at hl
  have := congrArg List.length hl
  simp at this

/-! ## C17: the numbers the storage decision is fed -/

/-- Rounding up to a multiple of a positive `k`: the result is a multiple of `k`, at
least `n`, and less than `n + k`. -/
theorem round_up_spec (n k : Nat) (hk : 0 < k) :
    k ∣ round_up n k ∧ n ≤ round_up n k ∧ round_up n k < n + k := by
  unfold round_up
  have h2 := Nat.div_add_mod (n + k - 1) k
  have h3 := Nat.mod_lt (n + k - 1) hk
  have h4 : (n + k - 1) / k * k = k * ((n + k - 1) / k) := Nat.mul_comm _ _
  refine ⟨Dvd.intro_left _ rfl, by omega, by omega⟩

/-- Rounding a positive `k` up to a multiple of itself gives `k`. -/
theorem round_up_self (k : Nat) (hk : 0 < k) : round_up k k = k := by
  obtain ⟨⟨c, hc⟩, h2, h3⟩ := round_up_spec k k hk
  rw [hc] at h2 h3 ⊢
  have hc1 : c = 1 := by
    rcases c with _ | _ | c
    · simp at h2; omega
    · rfl
    · exfalso
      have : k * (c + 1 + 1) = k * c + k + k := by ring
      omega
  rw [hc1, Nat.mul_one]

/-- C17: with `P > 0` the size and the alignment of a pointer, the constructor feeds the
storage decision the size `max(FixedStorageSize, P)` rounded up to a multiple of `P` and
the alignment `P`, those of the storage union. So a default-constructed wrapper binds
the inline table exactly when `T` is nothrow-move-constructible,
`sizeof(T) <= roundUp(max(FixedStorageSize, P), P)` and `P % alignof(T) == 0`; for
`FixedStorageSize < P` every nothrow-movable `T` with `sizeof(T) <= P` and
`P % alignof(T) == 0` is stored inline; and a `T` with `alignof(T) > P` is bound to
the external table whatever `FixedStorageSize` is. -/
theorem storage_decision_fed_union_layout {V E : Type} (T : WrappedType V E) (P F : Nat)
    (hP : 0 < P) (w : World V) (self : Nat) :
    sizeof_storage_type (pointer_platform P) F = round_up (max F P) P ∧
    alignof_storage_type (pointer_platform P) = P ∧
    (P ∣ round_up (max F P) P ∧ max F P ≤ round_up (max F P) P ∧
      round_up (max F P) P < max F P + P) ∧
    (bound_table (construct_default T (pointer_platform P) F w self).2 self =
        some (some .internal) ↔
      T.nothrow_move = true ∧ T.sizeof ≤ round_up (max F P) P ∧ P % T.alignof = 0) ∧
    (F < P → T.nothrow_move = true → T.sizeof ≤ P → P % T.alignof = 0 →
      bound_table (construct_default T (pointer_platform P) F w self).2 self =
        some (some .internal)) ∧
    (P < T.alignof →
      bound_table (construct_default T (pointer_platform P) F w self).2 self =
        some (some .external)) := by
  have ha : alignof_storage_type (pointer_platform P) = P := by
    simp [alignof_storage_type, pointer_platform]
    omega
  have hs : sizeof_storage_type (pointer_platform P) F = round_up (max F P) P := by
    simp [sizeof_storage_type, ha]
    simp [pointer_platform]
  have hiff := use_internal_storage_v_true T (sizeof_storage_type (pointer_platform P) F)
    (alignof_storage_type (pointer_platform P))
  rw [hs, ha] at hiff
  have hsel : select_strategy T (pointer_platform P) F = .internal ↔
      T.nothrow_move = true ∧ T.sizeof ≤ round_up (max F P) P ∧ P % T.alignof = 0 := by
    rw [← hiff, ← hs, ← ha]
    unfold select_strategy
    split <;> simp_all
  have hbound : bound_table (construct_default T (pointer_platform P) F w self).2 self =
        some (some .internal) ↔
      T.nothrow_move = true ∧ T.sizeof ≤ round_up (max F P) P ∧ P % T.alignof = 0 := by
    rw [bound_table_construct_default, ← hsel]
    simp
  refine ⟨hs, ha, round_up_spec _ _ hP, hbound, ?_, ?_⟩
  · intro hF h1 h2 h3
    refine hbound.2 ⟨h1, ?_, h3⟩
    rw [max_eq_right (Nat.le_of_lt hF), round_up_self P hP]
    exact h2
  · intro hal
    rw [bound_table_construct_default]
    have hne : ¬ select_strategy T (pointer_platform P) F = .internal := by
      intro h
      have h3 := (hsel.1 h).2.2
      rw [Nat.mod_eq_of_lt hal] at h3
      omega
    cases hc : select_strategy T (pointer_platform P) F
    · exact absurd hc hne
    · rfl

/-- C17 on the demonstration program: with 8-byte pointers and `FixedStorageSize = 1`
the compared size is 8 and the 1-byte `Object2` binds the inline table; a type aligned
to 16 binds the external table even with `FixedStorageSize = 256`. -/
theorem storage_decision_fed_union_layout_witness :
    sizeof_storage_type (pointer_platform 8) 1 = 8 ∧
    bound_table (construct_default Object2 (pointer_platform 8) 1 (World.empty Unit) 0).2 0 =
      some (some .internal) ∧
    bound_table (construct_default { Int32 with sizeof := 16, alignof := 16 }
      (pointer_platform 8) 256 (World.empty Nat) 0).2 0 = some (some .external) :=
  ⟨((storage_decision_fed_union_layout Object2 8 1 (by decide) (World.empty Unit) 0).1).trans
      (by decide),
   (storage_decision_fed_union_layout Object2 8 1 (by decide) (World.empty Unit) 0).2.2.2.2.1
      (by decide) rfl (by decide) rfl,
   (storage_decision_fed_union_layout { Int32 with sizeof := 16, alignof := 16 } 8 256
      (by decide) (World.empty Nat) 0).2.2.2.2.2 (by decide)⟩

/-! ## What a strategy call can change -/

theorem respects_bind {V E α β : Type} {R : World V → World V → Prop} {S : Ptr → Prop}
    {a : Nat} (h : Respects R S a) (base : World V) (r : Outcome V E α)
    (k : α → World V → Outcome V E β) (h1 : R base r.2) (h2 : ∀ u w1, R w1 (k u w1).2) :
    R base (r.bind k).2 := by
  rcases r with ⟨x, w1⟩
  cases x with
  | error e => exact h1
  | ok u => exact h.trans _ _ _ h1 (h2 u w1)

theorem respects_destroy_at {V E : Type} {R : World V → World V → Prop} {S : Ptr → Prop}
    {a : Nat} (h : Respects R S a) (w : World V) (q : Ptr) (hq : S q) :
    R w (destroy_at w q : Outcome V E Unit).2 := by
  unfold destroy_at
  split
  · exact h.trans _ _ _ (h.slot w q _ hq) (h.emit _ _)
  · exact h.refl w

theorem respects_construct_at {V E : Type} {R : World V → World V → Prop} {S : Ptr → Prop}
    {a : Nat} (h : Respects R S a) (T : WrappedType V E) (w : World V) (q : Ptr) (hq : S q) :
    R w (construct_at T w q).2 := by
  unfold construct_at
  split
  · exact h.refl w
  · split
    · exact h.trans _ _ _ (h.slot w q _ hq) (h.emit _ _)
    · exact h.refl w

theorem respects_copy_construct_at {V E : Type} {R : World V → World V → Prop}
    {S : Ptr → Prop} {a : Nat} (h : Respects R S a) (T : WrappedType V E) (w : World V)
    (q p : Ptr) (hq : S q) : R w (copy_construct_at T w q p).2 := by
  unfold copy_construct_at
  split
  · exact h.refl w
  · split
    · exact h.refl w
    · split
      · exact h.trans _ _ _ (h.slot w q _ hq) (h.emit _ _)
      · exact h.refl w

theorem respects_move_construct_at {V E : Type} {R : World V → World V → Prop}
    {S : Ptr → Prop} {a : Nat} (h : Respects R S a) (T : WrappedType V E) (w : World V)
    (q p : Ptr) (hq : S q) (hp : S p) : R w (move_construct_at T w q p).2 := by
  unfold move_construct_at
  split
  · exact h.refl w
  · split
    · exact h.refl w
    · split
      · exact h.trans _ _ _ (h.trans _ _ _ (h.slot w p _ hp) (h.slot _ q _ hq)) (h.emit _ _)
      · exact h.refl w

theorem respects_new_expr {V E : Type} {R : World V → World V → Prop} {S : Ptr → Prop}
    {a : Nat} (h : Respects R S a) (w : World V) (init : World V → Ptr → Outcome V E Unit)
    (hb : S (.ext w.brk)) (hi : ∀ m, R m (init m (.ext w.brk)).2) :
    R w (new_expr w init).2 := by
  unfold new_expr
  have h1 := hi (allocate w)
  rcases hinit : init (allocate w) (.ext w.brk) with ⟨x, w2⟩
  rw [hinit] at h1
  cases x with
  | ok u => exact h.trans _ _ _ (h.alloc w hb) h1
  | error e => exact h.trans _ _ _ (h.trans _ _ _ (h.alloc w hb) h1) (h.free _ _ hb)

theorem respects_delete_expr {V E : Type} {R : World V → World V → Prop} {S : Ptr → Prop}
    {a : Nat} (h : Respects R S a) (w : World V) (q : Ptr) (hq : S q) :
    R w (delete_expr w q : Outcome V E Unit).2 := by
  cases q with
  | null => exact h.refl w
  | inl i => exact h.refl w
  | ext b =>
    simp only [delete_expr]
    exact respects_bind h _ _ _ (respects_destroy_at h w _ hq) (fun _ w1 => h.free w1 b hq)

/-- A call of either strategy function on the cell of the wrapper at `a` only makes
elementary memory changes, on storage designated by the address of the cell's bytes, by
`pValue`, by the pointer held in the cell's pointer slot, or by the next fresh block. -/
theorem call_strategy_respects {V E : Type} {R : World V → World V → Prop} {S : Ptr → Prop}
    {a : Nat} (h : Respects R S a) (T : WrappedType V E) (f : strategy_fn) (w : World V)
    (op : storage_operation) (p : Ptr) (hself : S (.inl a)) (hp : S p)
    (hbrk : S (.ext w.brk))
    (hst : ∀ wr q, w.objs a = some wr → wr.storage_ = .ptr q → S q) :
    R w (call_strategy T (some f) w a op p).2 := by
  have hret : ∀ (_ : Unit) (m : World V),
      R m (((.ok .null : Except (Fault E) Ptr), m) : Outcome V E Ptr).2 := fun _ m => h.refl m
  have key : ∀ r : Outcome V E Ptr, R (w.emit (.print (strategy_name f))) r.2 → R w r.2 :=
    fun r hr => h.trans _ _ _ (h.emit w _) hr
  cases f with
  | internal =>
    apply key
    simp only [call_strategy, internal_storage_strategy, strategy_name]
    cases op with
    | GET_VALUE_PTR => exact h.refl _
    | CONSTRUCT => exact respects_bind h _ _ _ (respects_construct_at h T _ _ hself) hret
    | DESTROY => exact respects_bind h _ _ _ (respects_destroy_at h _ _ hself) hret
    | CONSTRUCT_COPY_VALUE =>
      simp only
      split
      · exact h.refl _
      · exact respects_bind h _ _ _ (respects_copy_construct_at h T _ _ _ hself) hret
    | CONSTRUCT_MOVE_VALUE =>
      simp only
      split
      · exact h.refl _
      · exact respects_bind h _ _ _ (respects_move_construct_at h T _ _ _ hself hp) hret
    | ASSIGN_COPY_VALUE =>
      simp only
      split
      · exact h.refl _
      · exact respects_bind h _ _ _ (respects_destroy_at h _ _ hself)
          (fun _ w1 => respects_bind h _ _ _ (respects_copy_construct_at h T _ _ _ hself) hret)
    | ASSIGN_MOVE_VALUE =>
      simp only
      split
      · exact h.refl _
      · exact respects_bind h _ _ _ (respects_destroy_at h _ _ hself)
          (fun _ w1 => respects_bind h _ _ _
            (respects_move_construct_at h T _ _ _ hself hp) hret)
  | external =>
    apply key
    have hset : ∀ (q : Ptr) (m : World V),
        R m (((.ok .null : Except (Fault E) Ptr), set_external_storage_ m a q) :
          Outcome V E Ptr).2 := fun q m => h.store m q
    have hb2 : S (.ext (w.emit (.print (strategy_name strategy_fn.external))).brk) := hbrk
    simp only [call_strategy, external_storage_strategy, strategy_name] at hb2 ⊢
    cases hobj : w.objs a with
    | none =>
      have : (w.emit (.print "external_storage_strategy")).objs a = none := hobj
      simp only [this]
      exact h.refl _
    | some wr =>
      have : (w.emit (.print "external_storage_strategy")).objs a = some wr := hobj
      simp only [this]
      rcases wr with ⟨st, sf⟩
      cases st with
      | bytes s =>
        cases op with
        | GET_VALUE_PTR => exact h.refl _
        | DESTROY => exact h.refl _
        | ASSIGN_COPY_VALUE => exact h.refl _
        | ASSIGN_MOVE_VALUE => exact h.refl _
        | CONSTRUCT =>
          exact respects_bind h _ _ _
            (respects_new_expr h _ _ hb2 (fun m => respects_construct_at h T m _ hb2)) hset
        | CONSTRUCT_COPY_VALUE =>
          simp only
          split
          · exact h.refl _
          · exact respects_bind h _ _ _ (respects_new_expr h _ _ hb2
              (fun m => respects_copy_construct_at h T m _ p hb2)) hset
        | CONSTRUCT_MOVE_VALUE =>
          simp only
          split
          · exact h.refl _
          · exact respects_bind h _ _ _ (respects_new_expr h _ _ hb2
              (fun m => respects_move_construct_at h T m _ p hb2 hp)) hset
      | ptr q =>
        have hq : S q := hst _ q hobj rfl
        cases op with
        | GET_VALUE_PTR =>
          simp only
          split
          · exact h.refl _
          · exact h.refl _
        | DESTROY =>
          simp only
          split
          · exact h.refl _
          · exact respects_bind h _ _ _ (respects_delete_expr h _ _ hq) hret
        | ASSIGN_COPY_VALUE =>
          simp only
          split
          · exact h.refl _
          · split
            · exact h.refl _
            · exact respects_bind h _ _ _ (respects_destroy_at h _ _ hq)
                (fun _ w1 => respects_bind h _ _ _
                  (respects_copy_construct_at h T _ _ _ hq) hret)
        | ASSIGN_MOVE_VALUE =>
          simp only
          split
          · exact h.refl _
          · split
            · exact h.refl _
            · exact respects_bind h _ _ _ (respects_destroy_at h _ _ hq)
                (fun _ w1 => respects_bind h _ _ _
                  (respects_move_construct_at h T _ _ _ hq hp) hret)
        | CONSTRUCT =>
          exact respects_bind h _ _ _
            (respects_new_expr h _ _ hb2 (fun m => respects_construct_at h T m _ hb2)) hset
        | CONSTRUCT_COPY_VALUE =>
          simp only
          split
          · exact h.refl _
          · exact respects_bind h _ _ _ (respects_new_expr h _ _ hb2
              (fun m => respects_copy_construct_at h T m _ p hb2)) hset
        | CONSTRUCT_MOVE_VALUE =>
          simp only
          split
          · exact h.refl _
          · exact respects_bind h _ _ _ (respects_new_expr h _ _ hb2
              (fun m => respects_move_construct_at h T m _ p hb2 hp)) hset

/-! ## C16: the bound table of a wrapper -/

theorem bound_table_set_slot {V : Type} (w : World V) (q : Ptr) (s : Slot V) (x : Nat) :
    bound_table (set_slot w q s) x = bound_table w x := by
  cases q with
  | null => rfl
  | ext b => rfl
  | inl i =>
    simp only [set_slot]
    cases hi : w.objs i with
    | none => rfl
    | some wr =>
      by_cases hx : x = i
      · simp [bound_table, hx, hi]
      · simp [bound_table, hx]

theorem bound_table_set_external_storage_ {V : Type} (w : World V) (a : Nat) (q : Ptr)
    (x : Nat) : bound_table (set_external_storage_ w a q) x = bound_table w x := by
  simp only [set_external_storage_]
  cases hi : w.objs a with
  | none => rfl
  | some wr =>
    by_cases hx : x = a
    · simp [bound_table, hx, hi]
    · simp [bound_table, hx]

/-- No elementary memory change rebinds a wrapper. -/
theorem tables_respects {V : Type} (a : Nat) :
    Respects (fun (w w2 : World V) => ∀ x, bound_table w2 x = bound_table w x)
      (fun _ => True) a where
  refl := fun _ _ => rfl
  trans := fun _ _ _ h1 h2 x => (h2 x).trans (h1 x)
  emit := fun _ _ _ => rfl
  slot := fun w q s _ x => bound_table_set_slot w q s x
  alloc := fun _ _ _ => rfl
  free := fun _ _ _ _ => rfl
  store := fun w q x => bound_table_set_external_storage_ w a q x

theorem bound_table_invoke {V E : Type} (T : WrappedType V E) (w : World V) (a : Nat)
    (op : storage_operation) (p : Ptr) (x : Nat) :
    bound_table (invoke T w a op p).2 x = bound_table w x := by
  unfold invoke
  cases hobj : w.objs a with
  | none => rfl
  | some wr =>
    rcases wr with ⟨st, sf⟩
    cases sf with
    | none => rfl
    | some f =>
      exact call_strategy_respects (tables_respects a) T f w op p trivial trivial trivial
        (fun _ _ _ _ => trivial) x

theorem bound_table_get_pointer {V E : Type} (T : WrappedType V E) (w : World V) (a : Nat)
    (x : Nat) : bound_table (get_pointer T w a).2 x = bound_table w x := by
  simp only [bound_table, (get_pointer_frame T w a).1]

theorem bound_table_assign_copy {V E : Type} (T : WrappedType V E) (w : World V)
    (a b x : Nat) : bound_table (assign_copy T w a b).2 x = bound_table w x := by
  unfold assign_copy
  split
  · rfl
  · have hg := bound_table_get_pointer T w b x
    rcases hgp : get_pointer T w b with ⟨r, w1⟩
    rw [hgp] at hg
    cases r with
    | error e => exact hg
    | ok p =>
      simp only [bind_ok]
      have hi := bound_table_invoke T w1 a .ASSIGN_COPY_VALUE p x
      rcases hiv : invoke T w1 a .ASSIGN_COPY_VALUE p with ⟨r2, w2⟩
      rw [hiv] at hi
      cases r2 with
      | error e => exact hi.trans hg
      | ok u => exact hi.trans hg

theorem bound_table_assign_move {V E : Type} (T : WrappedType V E) (w : World V)
    (a b x : Nat) : bound_table (assign_move T w a b).2 x = bound_table w x := by
  unfold assign_move
  split
  · rfl
  · have hg := bound_table_get_pointer T w b x
    rcases hgp : get_pointer T w b with ⟨r, w1⟩
    rw [hgp] at hg
    cases r with
    | error e => exact hg
    | ok p =>
      simp only [bind_ok]
      have hi := bound_table_invoke T w1 a .ASSIGN_MOVE_VALUE p x
      rcases hiv : invoke T w1 a .ASSIGN_MOVE_VALUE p with ⟨r2, w2⟩
      rw [hiv] at hi
      cases r2 with
      | error e => exact hi.trans hg
      | ok u => exact hi.trans hg

theorem bound_table_run_assignments {V E : Type} (T : WrappedType V E) (pf : Platform)
    (F : Nat) (x : Nat) (os : List wrapper_op) :
    ∀ w : World V, assignments_only os = true →
      bound_table (run T pf F os w).2 x = bound_table w x := by
  induction os with
  | nil => intro w _; rfl
  | cons o os ih =>
    intro w ho
    cases o with
    | default_construct a => simp [assignments_only] at ho
    | copy_construct a b => simp [assignments_only] at ho
    | move_construct a b => simp [assignments_only] at ho
    | destroy a => simp [assignments_only] at ho
    | copy_assign a b =>
      have h1 := bound_table_assign_copy T w a b x
      simp only [run, step]
      rcases hac : assign_copy T w a b with ⟨r, w1⟩
      rw [hac] at h1
      cases r with
      | error e => exact h1
      | ok u =>
        simp only [bind_ok]
        exact (ih w1 (by simpa [assignments_only] using ho)).trans h1
    | move_assign a b =>
      have h1 := bound_table_assign_move T w a b x
      simp only [run, step]
      rcases hac : assign_move T w a b with ⟨r, w1⟩
      rw [hac] at h1
      cases r with
      | error e => exact h1
      | ok u =>
        simp only [bind_ok]
        exact (ih w1 (by simpa [assignments_only] using ho)).trans h1

/-- C16: whatever the memory, the wrapper `x` and the wrappers `a` and `b` operated on,
copy assignment `a = b`, move assignment `a = std::move(b)`, `get_pointer`, `get` and both
conversion operators leave `x` bound to the table it was bound to, and so does every
finite sequence of assignments; with `x = a` the target of an assignment keeps its own
table whatever table the source `b` is bound to. In particular the table default
construction bound stays bound. -/
theorem bound_table_fixed {V E : Type} (T : WrappedType V E) (pf : Platform) (F : Nat)
    (w : World V) (a b x : Nat) :
    bound_table (assign_copy T w a b).2 x = bound_table w x ∧
    bound_table (assign_move T w a b).2 x = bound_table w x ∧
    bound_table (get_pointer T w a).2 x = bound_table w x ∧
    bound_table (get T w a).2 x = bound_table w x ∧
    bound_table (operator_T_ref T w a).2 x = bound_table w x ∧
    bound_table (operator_const_T_ref T w a).2 x = bound_table w x ∧
    (∀ os, assignments_only os = true →
      bound_table (run T pf F os w).2 x = bound_table w x) ∧
    (∀ os, assignments_only os = true →
      bound_table (run T pf F os (construct_default T pf F w x).2).2 x =
        some (some (select_strategy T pf F))) :=
  ⟨bound_table_assign_copy T w a b x, bound_table_assign_move T w a b x,
   bound_table_get_pointer T w a x, bound_table_get_pointer T w a x,
   bound_table_get_pointer T w a x, bound_table_get_pointer T w a x,
   fun os ho => bound_table_run_assignments T pf F x os w ho,
   fun os ho => (bound_table_run_assignments T pf F x os _ ho).trans
     (bound_table_construct_default T pf F w x)⟩

/-- C16 at a concrete input: wrapper 0 of `Big` (external table) after a copy assignment
and a move assignment from wrapper 1 is still bound to the external table. -/
theorem bound_table_fixed_witness :
    bound_table (run Big lp64 1 [.copy_assign 0 1, .move_assign 0 1]
      (two_wrappers Big 7)).2 0 = some (some .external) :=
  ((bound_table_fixed Big lp64 1 (two_wrappers Big 7) 0 1 0).2.2.2.2.2.2.1
    [.copy_assign 0 1, .move_assign 0 1] rfl).trans rfl

/-! ## C15: the effects of a strategy call -/

/-- Elementary memory changes on storage in `S` leave the rest of the memory alone. -/
theorem untouched_respects {V : Type} (S : Ptr → Prop) (a : Nat) :
    Respects (Untouched (V := V) S a) S a where
  refl := fun _ => ⟨fun _ _ _ => rfl, fun _ _ => rfl⟩
  trans := fun _ _ _ h1 h2 =>
    ⟨fun x hx hs => (h2.1 x hx hs).trans (h1.1 x hx hs),
     fun h hs => (h2.2 h hs).trans (h1.2 h hs)⟩
  emit := fun _ _ => ⟨fun _ _ _ => rfl, fun _ _ => rfl⟩
  slot := by
    intro w q s hq
    cases q with
    | null => exact ⟨fun _ _ _ => rfl, fun _ _ => rfl⟩
    | inl i =>
      simp only [set_slot]
      cases hi : w.objs i with
      | none => exact ⟨fun _ _ _ => rfl, fun _ _ => rfl⟩
      | some wr =>
        refine ⟨fun x _ hs => ?_, fun _ _ => rfl⟩
        have hxi : x ≠ i := fun h => hs (h ▸ hq)
        simp [hxi]
    | ext b =>
      refine ⟨fun _ _ _ => rfl, fun h hs => ?_⟩
      have hhb : h ≠ b := fun hh => hs (hh ▸ hq)
      simp [set_slot, hhb]
  alloc := by
    intro w hb
    refine ⟨fun _ _ _ => rfl, fun h hs => ?_⟩
    have hhb : h ≠ w.brk := fun hh => hs (hh ▸ hb)
    simp [allocate, World.emit, hhb]
  free := by
    intro w b hb
    refine ⟨fun _ _ _ => rfl, fun h hs => ?_⟩
    have hhb : h ≠ b := fun hh => hs (hh ▸ hb)
    simp [deallocate, World.emit, hhb]
  store := by
    intro w q
    simp only [set_external_storage_]
    cases hi : w.objs a with
    | none => exact ⟨fun _ _ _ => rfl, fun _ _ => rfl⟩
    | some wr =>
      refine ⟨fun x hx _ => ?_, fun _ _ => rfl⟩
      simp [hx]

/-- C15, refuted as stated: a read-pointer call, which changes neither the cell nor the
payload, still has an effect outside its arguments and its return value: under either
strategy it writes a line to the process-wide output stream. -/
theorem strategy_call_writes_to_cout :
    ((internal_storage_strategy Int32 (two_wrappers Int32 7) 0 .GET_VALUE_PTR .null).2.log =
        (two_wrappers Int32 7).log ++ [.print "internal_storage_strategy"] ∧
      (internal_storage_strategy Int32 (two_wrappers Int32 7) 0 .GET_VALUE_PTR .null).2.log ≠
        (two_wrappers Int32 7).log) ∧
    ((external_storage_strategy Big (two_wrappers Big 7) 0 .GET_VALUE_PTR .null).2.log =
        (two_wrappers Big 7).log ++ [.print "external_storage_strategy"] ∧
      (external_storage_strategy Big (two_wrappers Big 7) 0 .GET_VALUE_PTR .null).2.log ≠
        (two_wrappers Big 7).log) := by
  refine ⟨⟨rfl, ?_⟩, ⟨rfl, ?_⟩⟩
  · intro h
    have := congrArg List.length h
    rw [show (internal_storage_strategy Int32 (two_wrappers Int32 7) 0 .GET_VALUE_PTR
      .null).2.log = (two_wrappers Int32 7).log ++ [.print "internal_storage_strategy"]
      from rfl] at this
    simp at this
  · intro h
    have := congrArg List.length h
    rw [show (external_storage_strategy Big (two_wrappers Big 7) 0 .GET_VALUE_PTR
      .null).2.log = (two_wrappers Big 7).log ++ [.print "external_storage_strategy"]
      from rfl] at this
    simp at this

/-- C15, amended: a call of `internal_storage_strategy` or `external_storage_strategy`
on the cell of the wrapper at `a` with argument `pValue` first writes its own name to
`std::cout`, on every call; apart from that output, its return value, the cell passed
to it and the payload behind `pValue`, it changes no other wrapper and no heap block
other than the one the cell's pointer slot designates and one it allocates itself. -/
theorem strategy_call_effects {V E : Type} (T : WrappedType V E) (f : strategy_fn)
    (w : World V) (a : Nat) (op : storage_operation) (pValue : Ptr) :
    (∃ l, (call_strategy T (some f) w a op pValue).2.log =
      w.log ++ .print (strategy_name f) :: l) ∧
    (∀ x, x ≠ a → ¬ may_touch w a pValue (.inl x) →
      (call_strategy T (some f) w a op pValue).2.objs x = w.objs x) ∧
    (∀ h, ¬ may_touch w a pValue (.ext h) →
      (call_strategy T (some f) w a op pValue).2.heap h = w.heap h) := by
  have hfr : Untouched (may_touch w a pValue) a w (call_strategy T (some f) w a op pValue).2 :=
    call_strategy_respects (untouched_respects (may_touch w a pValue) a) T f w op pValue
      (Or.inl rfl) (Or.inr (Or.inl rfl)) (Or.inr (Or.inr (Or.inl rfl)))
      (fun wr q h1 h2 => Or.inr (Or.inr (Or.inr (by simp [stored_pointer, h1, h2]))))
  exact ⟨call_strategy_log T f w a op pValue, hfr.1, hfr.2⟩

/-- C15 (amended) at a concrete input: the external assign-from-copy on the cell of
wrapper 0 with the payload of wrapper 1 as source prints the strategy's name and leaves
wrapper 1 and the unrelated heap address 5 as they were. -/
theorem strategy_call_effects_witness :
    (call_strategy Big (some .external) (two_wrappers Big 7) 0 .ASSIGN_COPY_VALUE
      (.ext 1)).2.objs 1 = (two_wrappers Big 7).objs 1 ∧
    (call_strategy Big (some .external) (two_wrappers Big 7) 0 .ASSIGN_COPY_VALUE
      (.ext 1)).2.heap 5 = (two_wrappers Big 7).heap 5 :=
  have h := strategy_call_effects Big .external (two_wrappers Big 7) 0 .ASSIGN_COPY_VALUE
    (.ext 1)
  ⟨h.2.1 1 (by decide) (by unfold may_touch; decide),
   h.2.2 5 (by unfold may_touch; decide)⟩

/-! ## C14, C12: what assignment does inside a strategy -/

theorem load_inl_iff {V : Type} (w : World V) (b : Nat) (v : V) :
    load w (.inl b) = some v ↔ ∃ sf, w.objs b = some ⟨.bytes (.live v), sf⟩ := by
  simp only [load, slot_at]
  cases hb : w.objs b with
  | none => simp
  | some wr =>
    rcases wr with ⟨st, sf⟩
    rcases st with s | q
    · cases s <;> simp
    · simp

theorem load_ext_iff {V : Type} (w : World V) (h : Nat) (v : V) :
    load w (.ext h) = some v ↔ w.heap h = some (.live v) := by
  simp only [load, slot_at]
  cases hh : w.heap h with
  | none => simp
  | some s => cases s <;> simp

/-- C14: under the inline strategy, for a cell holding a live `T` and a source `pValue`
designating a live `T` of value `vb` elsewhere, assign-from-copy (when the copy
constructor yields `c` from `vb`) and assign-from-move (when the move constructor yields
`c` and leaves `r`) complete and add to the trace, after the strategy's own output line,
exactly one destructor run at the cell's address followed by exactly one construction,
by copy respectively by move, at the same address; afterwards the cell holds one live
`T` of value `c` (the source value, for a constructor that preserves it). No assignment
operator of `T` takes part: the strategy is given `T` by its constructors alone. -/
theorem internal_assign_destroys_then_constructs {V E : Type} (T : WrappedType V E)
    (w : World V) (a : Nat) (pValue : Ptr) (sf : Option strategy_fn) (va vb : V)
    (ha : w.objs a = some ⟨.bytes (.live va), sf⟩) (hp : pValue ≠ .inl a)
    (hsrc : load w pValue = some vb) :
    (∀ c, T.copy vb = .ok c →
      (internal_storage_strategy T w a .ASSIGN_COPY_VALUE pValue).1 = .ok .null ∧
      (internal_storage_strategy T w a .ASSIGN_COPY_VALUE pValue).2.log =
        w.log ++ [.print "internal_storage_strategy", .destroyed (.inl a),
          .constructed (.inl a) .by_copy] ∧
      slot_at (internal_storage_strategy T w a .ASSIGN_COPY_VALUE pValue).2 (.inl a) =
        some (.live c) ∧
      load (internal_storage_strategy T w a .ASSIGN_COPY_VALUE pValue).2 pValue = some vb) ∧
    (∀ c r, T.move vb = .ok (c, r) →
      (internal_storage_strategy T w a .ASSIGN_MOVE_VALUE pValue).1 = .ok .null ∧
      (internal_storage_strategy T w a .ASSIGN_MOVE_VALUE pValue).2.log =
        w.log ++ [.print "internal_storage_strategy", .destroyed (.inl a),
          .constructed (.inl a) .by_move] ∧
      slot_at (internal_storage_strategy T w a .ASSIGN_MOVE_VALUE pValue).2 (.inl a) =
        some (.live c) ∧
      load (internal_storage_strategy T w a .ASSIGN_MOVE_VALUE pValue).2 pValue = some r) := by
  cases pValue with
  | null => simp [load, slot_at] at hsrc
  | inl b =>
    have hba : b ≠ a := fun h => hp (by rw [h])
    obtain ⟨sfb, hb⟩ := (load_inl_iff w b vb).1 hsrc
    constructor
    · intro c hc
      simp [internal_storage_strategy, destroy_at, copy_construct_at, load, slot_at, set_slot,
        World.emit, ha, hb, hba, Ne.symm hba, hc, upd]
    · intro c r hc
      simp [internal_storage_strategy, destroy_at, move_construct_at, load, slot_at, set_slot,
        World.emit, ha, hb, hba, Ne.symm hba, hc, upd]
  | ext h =>
    have hh := (load_ext_iff w h vb).1 hsrc
    constructor
    · intro c hc
      simp [internal_storage_strategy, destroy_at, copy_construct_at, load, slot_at, set_slot,
        World.emit, ha, hh, hc, upd]
    · intro c r hc
      simp [internal_storage_strategy, destroy_at, move_construct_at, load, slot_at, set_slot,
        World.emit, ha, hh, hc, upd]

/-- C14 at a concrete input: wrapper 0 of `Int32` holds 0 and wrapper 1 holds 7; the
inline assign-from-copy and assign-from-move on the cell of wrapper 0 with the value of
wrapper 1 as source destroy, then construct, at the address of wrapper 0. -/
theorem internal_assign_destroys_then_constructs_witness :
    (internal_storage_strategy Int32 (two_wrappers Int32 7) 0 .ASSIGN_COPY_VALUE (.inl 1)).2.log
      = (two_wrappers Int32 7).log ++ [.print "internal_storage_strategy",
          .destroyed (.inl 0), .constructed (.inl 0) .by_copy] ∧
    slot_at (internal_storage_strategy Int32 (two_wrappers Int32 7) 0 .ASSIGN_MOVE_VALUE
      (.inl 1)).2 (.inl 0) = some (.live 7) :=
  have h := internal_assign_destroys_then_constructs Int32 (two_wrappers Int32 7) 0 (.inl 1)
    (some .internal) 0 7 rfl (by decide) rfl
  ⟨(h.1 7 rfl).2.1, (h.2 7 7 rfl).2.2.1⟩

/-- C12, refuted as stated: wrapper 0 of `Big` owns heap block 0 and wrapper 1 owns block
1 holding 7. The external assign-from-copy and assign-from-move on the cell of wrapper 0
release nothing and allocate nothing: the trace has as many allocations and releases as
before, the allocator has handed out no new block, and the pointer slot still designates
block 0, which now holds the new value. -/
theorem external_assign_allocates_nothing :
    (allocations (external_storage_strategy Big (two_wrappers Big 7) 0 .ASSIGN_COPY_VALUE
        (.ext 1)).2.log = allocations (two_wrappers Big 7).log ∧
      releases (external_storage_strategy Big (two_wrappers Big 7) 0 .ASSIGN_COPY_VALUE
        (.ext 1)).2.log = releases (two_wrappers Big 7).log ∧
      (external_storage_strategy Big (two_wrappers Big 7) 0 .ASSIGN_COPY_VALUE
        (.ext 1)).2.brk = (two_wrappers Big 7).brk ∧
      stored_pointer (external_storage_strategy Big (two_wrappers Big 7) 0 .ASSIGN_COPY_VALUE
        (.ext 1)).2 0 = some (.ext 0) ∧
      stored_pointer (two_wrappers Big 7) 0 = some (.ext 0) ∧
      (external_storage_strategy Big (two_wrappers Big 7) 0 .ASSIGN_COPY_VALUE
        (.ext 1)).2.heap 0 = some (.live 7)) ∧
    (allocations (external_storage_strategy Big (two_wrappers Big 7) 0 .ASSIGN_MOVE_VALUE
        (.ext 1)).2.log = allocations (two_wrappers Big 7).log ∧
      releases (external_storage_strategy Big (two_wrappers Big 7) 0 .ASSIGN_MOVE_VALUE
        (.ext 1)).2.log = releases (two_wrappers Big 7).log ∧
      (external_storage_strategy Big (two_wrappers Big 7) 0 .ASSIGN_MOVE_VALUE
        (.ext 1)).2.brk = (two_wrappers Big 7).brk ∧
      stored_pointer (external_storage_strategy Big (two_wrappers Big 7) 0 .ASSIGN_MOVE_VALUE
        (.ext 1)).2 0 = some (.ext 0) ∧
      (external_storage_strategy Big (two_wrappers Big 7) 0 .ASSIGN_MOVE_VALUE
        (.ext 1)).2.heap 0 = some (.live 7)) := by
  refine ⟨⟨by decide, by decide, rfl, rfl, rfl, rfl⟩, ⟨by decide, by decide, rfl, rfl, rfl⟩⟩

/-- C12, amended: under the external strategy, for a cell whose pointer slot designates a
heap block holding a live `T` and a source `pValue` designating a live `T` of value `vb`
elsewhere, assign-from-copy (when the copy constructor yields `c`) and assign-from-move
(when the move constructor yields `c` and leaves `r`) destroy the current value in place
and placement-construct the new one in the same heap block: the trace gains the
strategy's output line, one destructor run and one construction at that block and
nothing else, so no allocation and no release; the pointer slot keeps its address and
the block holds `c`. -/
theorem external_assign_reuses_block {V E : Type} (T : WrappedType V E)
    (w : World V) (a ba : Nat) (pValue : Ptr) (sf : Option strategy_fn) (va vb : V)
    (ha : w.objs a = some ⟨.ptr (.ext ba), sf⟩) (hva : w.heap ba = some (.live va))
    (hp : pValue ≠ .ext ba) (hsrc : load w pValue = some vb) :
    (∀ c, T.copy vb = .ok c →
      (external_storage_strategy T w a .ASSIGN_COPY_VALUE pValue).1 = .ok .null ∧
      (external_storage_strategy T w a .ASSIGN_COPY_VALUE pValue).2.log =
        w.log ++ [.print "external_storage_strategy", .destroyed (.ext ba),
          .constructed (.ext ba) .by_copy] ∧
      stored_pointer (external_storage_strategy T w a .ASSIGN_COPY_VALUE pValue).2 a =
        some (.ext ba) ∧
      (external_storage_strategy T w a .ASSIGN_COPY_VALUE pValue).2.heap ba =
        some (.live c) ∧
      (external_storage_strategy T w a .ASSIGN_COPY_VALUE pValue).2.brk = w.brk ∧
      allocations (external_storage_strategy T w a .ASSIGN_COPY_VALUE pValue).2.log =
        allocations w.log ∧
      releases (external_storage_strategy T w a .ASSIGN_COPY_VALUE pValue).2.log =
        releases w.log) ∧
    (∀ c r, T.move vb = .ok (c, r) →
      (external_storage_strategy T w a .ASSIGN_MOVE_VALUE pValue).1 = .ok .null ∧
      (external_storage_strategy T w a .ASSIGN_MOVE_VALUE pValue).2.log =
        w.log ++ [.print "external_storage_strategy", .destroyed (.ext ba),
          .constructed (.ext ba) .by_move] ∧
      stored_pointer (external_storage_strategy T w a .ASSIGN_MOVE_VALUE pValue).2 a =
        some (.ext ba) ∧
      (external_storage_strategy T w a .ASSIGN_MOVE_VALUE pValue).2.heap ba =
        some (.live c) ∧
      (external_storage_strategy T w a .ASSIGN_MOVE_VALUE pValue).2.brk = w.brk ∧
      allocations (external_storage_strategy T w a .ASSIGN_MOVE_VALUE pValue).2.log =
        allocations w.log ∧
      releases (external_storage_strategy T w a .ASSIGN_MOVE_VALUE pValue).2.log =
        releases w.log) := by
  cases pValue with
  | null => simp [load, slot_at] at hsrc
  | inl b =>
    obtain ⟨sfb, hb⟩ := (load_inl_iff w b vb).1 hsrc
    have hba : b ≠ a := by
      intro h
      rw [h, ha] at hb
      cases hb
    constructor
    · intro c hc
      simp [external_storage_strategy, destroy_at, copy_construct_at, load, slot_at, set_slot,
        World.emit, ha, hva, hb, hc, upd, stored_pointer, allocations, releases,
        List.countP_append]
    · intro c r hc
      simp [external_storage_strategy, destroy_at, move_construct_at, load, slot_at, set_slot,
        World.emit, ha, hva, hb, hc, upd, stored_pointer, allocations, releases,
        List.countP_append, Ne.symm hba]
  | ext h =>
    have hh := (load_ext_iff w h vb).1 hsrc
    have hne : h ≠ ba := fun e => hp (by rw [e])
    constructor
    · intro c hc
      simp [external_storage_strategy, destroy_at, copy_construct_at, load, slot_at, set_slot,
        World.emit, ha, hva, hh, hc, upd, stored_pointer, allocations, releases,
        List.countP_append, hne]
    · intro c r hc
      simp [external_storage_strategy, destroy_at, move_construct_at, load, slot_at, set_slot,
        World.emit, ha, hva, hh, hc, upd, stored_pointer, allocations, releases,
        List.countP_append, hne, Ne.symm hne]

/-- C12 (amended) at a concrete input: wrapper 0 of `Big` owns block 0, wrapper 1 owns
block 1 holding 7; assign-from-copy and assign-from-move on the cell of wrapper 0 run one
destructor and one constructor at block 0 and nothing else. -/
theorem external_assign_reuses_block_witness :
    (external_storage_strategy Big (two_wrappers Big 7) 0 .ASSIGN_COPY_VALUE (.ext 1)).2.log
      = (two_wrappers Big 7).log ++ [.print "external_storage_strategy",
          .destroyed (.ext 0), .constructed (.ext 0) .by_copy] ∧
    (external_storage_strategy Big (two_wrappers Big 7) 0 .ASSIGN_MOVE_VALUE (.ext 1)).2.log
      = (two_wrappers Big 7).log ++ [.print "external_storage_strategy",
          .destroyed (.ext 0), .constructed (.ext 0) .by_move] :=
  have h := external_assign_reuses_block Big (two_wrappers Big 7) 0 0 (.ext 1)
    (some .external) 0 7 rfl rfl (by decide) rfl
  ⟨(h.1 7 rfl).2.1, (h.2 7 0 rfl).2.1⟩

/-! ## C13: the inline read-pointer operation -/

/-- C13, refuted as stated: after the inline destroy operation the cell of wrapper 0 of
`Int32` holds no live `T`, yet the inline read-pointer operation completes and returns
the address of the cell's bytes, and `get_pointer`, whose assertion only tests the
returned pointer against null, completes as well. -/
theorem internal_read_pointer_on_destroyed_cell :
    (internal_storage_strategy Int32 (two_wrappers Int32 7) 0 .DESTROY .null).1 = .ok .null ∧
    slot_at (internal_storage_strategy Int32 (two_wrappers Int32 7) 0 .DESTROY .null).2
      (.inl 0) = some .dead ∧
    (internal_storage_strategy Int32
      (internal_storage_strategy Int32 (two_wrappers Int32 7) 0 .DESTROY .null).2 0
      .GET_VALUE_PTR .null).1 = .ok (.inl 0) ∧
    (get_pointer Int32
      (internal_storage_strategy Int32 (two_wrappers Int32 7) 0 .DESTROY .null).2 0).1
      = .ok (.inl 0) :=
  ⟨rfl, rfl, rfl, rfl⟩

/-- C13, amended: under the inline strategy read-pointer performs no check and never
fails: for every memory and every cell it returns the address of the cell's bytes and
changes nothing but the output stream; `get_pointer` on a wrapper bound to the inline
table therefore always completes with that non-null address. When a value is alive in
the cell, that address designates the live `T`. -/
theorem internal_read_pointer_unchecked {V E : Type} (T : WrappedType V E) (w : World V)
    (a : Nat) (pValue : Ptr) :
    internal_storage_strategy T w a .GET_VALUE_PTR pValue =
      (.ok (.inl a), w.emit (.print "internal_storage_strategy")) ∧
    (bound_table w a = some (some .internal) →
      get_pointer T w a = (.ok (.inl a), w.emit (.print "internal_storage_strategy"))) ∧
    (∀ v sf, w.objs a = some ⟨.bytes (.live v), sf⟩ →
      load (internal_storage_strategy T w a .GET_VALUE_PTR pValue).2 (.inl a) = some v) := by
  refine ⟨rfl, ?_, ?_⟩
  · intro hb
    unfold bound_table at hb
    cases hw : w.objs a with
    | none => simp [hw] at hb
    | some wr =>
      rcases wr with ⟨st, sf⟩
      simp [hw] at hb
      subst hb
      simp [get_pointer, invoke, hw, call_strategy, internal_storage_strategy]
  · intro v sf hw
    simp [internal_storage_strategy, load, slot_at, World.emit, hw]

/-- C13 (amended) at a concrete input: `get_pointer` on the live wrapper 1 of `Int32`
returns the address of its bytes, which hold 7. -/
theorem internal_read_pointer_unchecked_witness :
    get_pointer Int32 (two_wrappers Int32 7) 1 =
      ((.ok (.inl 1) : Except (Fault Unit) Ptr),
        (two_wrappers Int32 7).emit (.print "internal_storage_strategy")) ∧
    load (internal_storage_strategy Int32 (two_wrappers Int32 7) 1 .GET_VALUE_PTR .null).2
      (.inl 1) = some 7 :=
  have h := internal_read_pointer_unchecked Int32 (two_wrappers Int32 7) 1 .null
  ⟨h.2.1 rfl, h.2.2 7 (some .internal) rfl⟩

/-! ## C11: value access on a wrapper reached by completed operations -/

theorem construct_default_thrown {V E : Type} (T : WrappedType V E) (pf : Platform)
    (F : Nat) (w : World V) (a : Nat) (e : E) (he : T.ctor = .error e) :
    (construct_default T pf F w a).1 = .error (.thrown e) := by
  cases hf : select_strategy T pf F with
  | internal =>
    simp [construct_default, invoke, hf, set_storage_strategy_, begin_object, call_strategy,
      internal_storage_strategy, construct_at, slot_at, World.emit, he]
  | external =>
    simp [construct_default, invoke, hf, set_storage_strategy_, begin_object, call_strategy,
      external_storage_strategy, new_expr, allocate, construct_at, slot_at, World.emit, he]

theorem copy_ok_of_assign_ok {V E : Type} (T : WrappedType V E) (f : strategy_fn)
    (w : World V) (live : List Nat) (a b u : Nat) (hB : Balanced f w live) (ha : a ∈ live)
    (hb : b ∈ live) (hab : a ≠ b) (h : (assign_copy T w a b).1 = .ok u) :
    ∀ vb, Live w b f vb → ∃ c, T.copy vb = .ok c := by
  intro vb hvb
  obtain ⟨va, hva⟩ := hB.2.1 a ha
  cases hc : T.copy vb with
  | ok c => exact ⟨c, rfl⟩
  | error e =>
    have := ((assign_failure_core T w f a b va vb e hab hva hvb
      (hB.2.2.2.1 a b ha hb hab)).1 hc).1
    rw [this] at h
    cases h

theorem move_ok_of_assign_ok {V E : Type} (T : WrappedType V E) (f : strategy_fn)
    (w : World V) (live : List Nat) (a b u : Nat) (hB : Balanced f w live) (ha : a ∈ live)
    (hb : b ∈ live) (hab : a ≠ b) (h : (assign_move T w a b).1 = .ok u) :
    ∀ vb, Live w b f vb → ∃ c r, T.move vb = .ok (c, r) := by
  intro vb hvb
  obtain ⟨va, hva⟩ := hB.2.1 a ha
  cases hc : T.move vb with
  | ok cr => exact ⟨cr.1, cr.2, rfl⟩
  | error e =>
    have := ((assign_failure_core T w f a b va vb e hab hva hvb
      (hB.2.2.2.1 a b ha hb hab)).2 hc).1
    rw [this] at h
    cases h

theorem fst_ok_of_bind_ok {V E α β : Type} (r : Outcome V E α)
    (k : α → World V → Outcome V E β) (y : β) (h : (r.bind k).1 = .ok y) :
    ∃ x, r.1 = .ok x ∧ (k x r.2).1 = .ok y := by
  rcases r with ⟨x, w⟩
  cases x with
  | error e => cases h
  | ok x => exact ⟨x, rfl, h⟩

/-- A correctly used sequence of default constructions, assignments and destructions
whose run completes keeps the memory balanced, whatever `T` is. -/
theorem run_reaches_balanced {V E : Type} (T : WrappedType V E) (pf : Platform) (F : Nat)
    (os : List wrapper_op) :
    ∀ (live live2 : List Nat) (w : World V), Balanced (select_strategy T pf F) w live →
      live_after live os = some live2 → no_copy_move_construction os = true →
      (run T pf F os w).1 = .ok () →
      Balanced (select_strategy T pf F) (run T pf F os w).2 live2 := by
  induction os with
  | nil =>
    intro live live2 w hB hla _ _
    simp [live_after] at hla
    subst hla
    exact hB
  | cons o os ih =>
    intro live live2 w hB hla hnc hrun
    simp only [run] at hrun ⊢
    obtain ⟨x, hx, hrest⟩ := fst_ok_of_bind_ok _ _ _ hrun
    rw [bind_of_fst_ok _ x _ hx] at hrun ⊢
    cases o with
    | copy_construct a b => simp [no_copy_move_construction] at hnc
    | move_construct a b => simp [no_copy_move_construction] at hnc
    | default_construct a =>
      simp [live_after] at hla
      simp only [step] at hx hrest ⊢
      cases hd : T.ctor with
      | error e =>
        rw [construct_default_thrown T pf F w a e hd] at hx
        cases hx
      | ok d =>
        have h2 := (balanced_construct_default T pf F w live a d hd hB hla.1).2
        exact ih _ _ _ h2 hla.2 (by simpa [no_copy_move_construction] using hnc) hrest
    | copy_assign a b =>
      simp [live_after] at hla
      simp only [step] at hx hrest ⊢
      obtain ⟨u, hu, _⟩ := fst_ok_of_bind_ok _ _ _ hx
      have hw : ((assign_copy T w a b).bind fun _ w1 =>
          ((.ok () : Except (Fault E) Unit), w1)).2 = (assign_copy T w a b).2 := by
        rw [bind_of_fst_ok _ u _ hu]
      rw [hw] at hrest ⊢
      have h2 : Balanced (select_strategy T pf F) (assign_copy T w a b).2 live := by
        by_cases hab : a = b
        · subst hab
          have hself : assign_copy T w a a = (.ok a, w) := by simp [assign_copy]
          rw [hself]
          exact hB
        · exact (balanced_assign_copy_of_ok T _ w live a b
            (copy_ok_of_assign_ok T _ w live a b u hB hla.1.1 hla.1.2 hab hu)
            hB hla.1.1 hla.1.2).2
      exact ih _ _ _ h2 hla.2 (by simpa [no_copy_move_construction] using hnc) hrest
    | move_assign a b =>
      simp [live_after] at hla
      simp only [step] at hx hrest ⊢
      obtain ⟨u, hu, _⟩ := fst_ok_of_bind_ok _ _ _ hx
      have hw : ((assign_move T w a b).bind fun _ w1 =>
          ((.ok () : Except (Fault E) Unit), w1)).2 = (assign_move T w a b).2 := by
        rw [bind_of_fst_ok _ u _ hu]
      rw [hw] at hrest ⊢
      have h2 : Balanced (select_strategy T pf F) (assign_move T w a b).2 live := by
        by_cases hab : a = b
        · subst hab
          have hself : assign_move T w a a = (.ok a, w) := by simp [assign_move]
          rw [hself]
          exact hB
        · exact (balanced_assign_move_of_ok T _ w live a b
            (move_ok_of_assign_ok T _ w live a b u hB hla.1.1 hla.1.2 hab hu)
            hB hla.1.1 hla.1.2).2
      exact ih _ _ _ h2 hla.2 (by simpa [no_copy_move_construction] using hnc) hrest
    | destroy a =>
      simp [live_after] at hla
      simp only [step] at hx hrest ⊢
      have h2 := (balanced_destruct (E := E) T _ w live a hB hla.1).2
      exact ih _ _ _ h2 hla.2 (by simpa [no_copy_move_construction] using hnc) hrest

/-- C11, refuted as stated: two wrappers of `Unmovable` are default-constructed and
wrapper 0 is move-assigned from wrapper 1; the move constructor fails and the exception
propagates. Wrapper 0, obtained by default construction followed by a move assignment, is
still there and bound to its table, and `get_pointer` on it completes with the address
of its heap block, but no value is held there: the block holds destroyed storage. -/
theorem value_access_after_failed_move_assignment :
    (run Unmovable lp64 1 [.default_construct 0, .default_construct 1, .move_assign 0 1]
      (World.empty Nat)).1 = .error (.thrown "move failed") ∧
    bound_table (run Unmovable lp64 1
      [.default_construct 0, .default_construct 1, .move_assign 0 1]
      (World.empty Nat)).2 0 = some (some .external) ∧
    (get_pointer Unmovable (run Unmovable lp64 1
      [.default_construct 0, .default_construct 1, .move_assign 0 1]
      (World.empty Nat)).2 0).1 = .ok (.ext 0) ∧
    slot_at (run Unmovable lp64 1
      [.default_construct 0, .default_construct 1, .move_assign 0 1]
      (World.empty Nat)).2 (.ext 0) = some .dead ∧
    load (run Unmovable lp64 1
      [.default_construct 0, .default_construct 1, .move_assign 0 1]
      (World.empty Nat)).2 (.ext 0) = none :=
  ⟨rfl, rfl, rfl, rfl, rfl⟩

/-- C11, amended: let a sequence of default constructions and move assignments (and
destructions of other wrappers), used correctly from the start of the program, have run
with every operation completing, and let `a` be a wrapper alive after it. Then
`get_pointer` on `a` completes, so its null-pointer assertion does not fire; `get` and
the conversion operator to `T&` give the same result, a non-null pointer to the one live
`T` the cell holds; and the call leaves every wrapper (cell and bound table) and the heap
as they were and adds no allocation and no release to the trace, only the strategy's
output line. -/
theorem value_access_after_completed_moves {V E : Type} (T : WrappedType V E)
    (pf : Platform) (F : Nat) (os : List wrapper_op) (live : List Nat) (a : Nat)
    (hnc : no_copy_move_construction os = true) (_hncp : no_copy_operation os = true)
    (hla : live_after [] os = some live)
    (hrun : (run T pf F os (World.empty V)).1 = .ok ()) (ha : a ∈ live) :
    ∃ p v,
      get_pointer T (run T pf F os (World.empty V)).2 a =
        (.ok p, (run T pf F os (World.empty V)).2.emit
          (.print (strategy_name (select_strategy T pf F)))) ∧
      get T (run T pf F os (World.empty V)).2 a =
        get_pointer T (run T pf F os (World.empty V)).2 a ∧
      operator_T_ref T (run T pf F os (World.empty V)).2 a =
        get_pointer T (run T pf F os (World.empty V)).2 a ∧
      p ≠ .null ∧
      load (run T pf F os (World.empty V)).2 p = some v ∧
      (get_pointer T (run T pf F os (World.empty V)).2 a).2.objs =
        (run T pf F os (World.empty V)).2.objs ∧
      (get_pointer T (run T pf F os (World.empty V)).2 a).2.heap =
        (run T pf F os (World.empty V)).2.heap ∧
      allocations (get_pointer T (run T pf F os (World.empty V)).2 a).2.log =
        allocations (run T pf F os (World.empty V)).2.log ∧
      releases (get_pointer T (run T pf F os (World.empty V)).2 a).2.log =
        releases (run T pf F os (World.empty V)).2.log := by
  have hB := run_reaches_balanced T pf F os [] live (World.empty V) (balanced_empty _) hla
    hnc hrun
  obtain ⟨v, hv⟩ := hB.2.1 a ha
  obtain ⟨p, hp, hpn, hload, _⟩ := get_pointer_of_live (E := E) T _ a _ v hv
  refine ⟨p, v, hp, rfl, rfl, hpn, hload, ?_, ?_, ?_, ?_⟩
  · rw [hp]; rfl
  · rw [hp]; rfl
  · rw [hp]; simp [allocations, World.emit, List.countP_append]
  · rw [hp]; simp [releases, World.emit, List.countP_append]

/-- C11 (amended) at a concrete input: two wrappers of `Big` are default-constructed,
wrapper 0 is move-assigned from wrapper 1 and wrapper 1 from wrapper 0; `get_pointer` on
wrapper 0 then returns its heap block, which holds a value. -/
theorem value_access_after_completed_moves_witness :
    ∃ p v,
      get_pointer Big (run Big lp64 1 [.default_construct 0, .default_construct 1,
        .move_assign 0 1, .move_assign 1 0] (World.empty Nat)).2 0 =
        (.ok p, (run Big lp64 1 [.default_construct 0, .default_construct 1,
          .move_assign 0 1, .move_assign 1 0] (World.empty Nat)).2.emit
          (.print (strategy_name (select_strategy Big lp64 1)))) ∧
      p ≠ .null ∧
      load (run Big lp64 1 [.default_construct 0, .default_construct 1,
        .move_assign 0 1, .move_assign 1 0] (World.empty Nat)).2 p = some v :=
  have h := value_access_after_completed_moves Big lp64 1
    [.default_construct 0, .default_construct 1, .move_assign 0 1, .move_assign 1 0]
    [1, 0] 0 (by decide) (by decide) (by decide) rfl (by decide)
  h.elim fun p hp => hp.elim fun v hv => ⟨p, v, hv.1, hv.2.2.2.1, hv.2.2.2.2.1⟩

end RecursiveWrapper
